import Mathlib

/-!
# The cgroup v1 freezer controller (`libcontainer/cgroups/fs/freezer.go`)

A shallow embedding of `FreezerGroup.Set` and `FreezerGroup.GetState`.

The kernel pseudo-file store (`fscommon.WriteFile` / `fscommon.ReadFile`) is the
environment of the controller.  It is a parameter of every definition: a `Store`
answers each access as a function of the history of everything the call has done
so far (earlier writes, reads and pauses, in order).  Since a deterministic
sequential caller never repeats a history, every behaviour an external store can
show during one call is such a function.

Go strings are rendered as Lean `String`s (sequences of Unicode code points); byte
strings that are not valid UTF-8 are outside the model.
-/

namespace Freezer

/-! ## Data model -/

/-- The Go type `configs.FreezerState`, a string type. -/
abbrev FreezerState := String

/-- Modelled from the spec: the constant `configs.Undefined` (package `configs` is
not part of the sources at hand); the empty state. -/
def Undefined : FreezerState := ""

/-- Modelled from the spec: the constant `configs.Frozen`, the token `"FROZEN"`. -/
def Frozen : FreezerState := "FROZEN"

/-- Modelled from the spec: the constant `configs.Thawed`, the token `"THAWED"`. -/
def Thawed : FreezerState := "THAWED"

/-- The part of `configs.Resources` that `Set` reads: the field `Freezer`. -/
structure Resources where
  Freezer : FreezerState
deriving DecidableEq, Repr

/-- Go `error` values that occur in the controller.
* `io msg notExist enodev`: an error value produced by the store; the two flags
  are what `os.IsNotExist(err)` and `errors.Is(err, unix.ENODEV)` answer on it.
* `errorString msg`: the value of `errors.New(msg)`, and of `fmt.Errorf` with
  `%s` verbs only (the verbs substituted).
* `errorfQ pre arg`: the value of `fmt.Errorf(pre ++ "%q", arg)`; the quoting done
  by `%q` is kept symbolic. -/
inductive Error where
  | io (msg : String) (notExist : Bool) (enodev : Bool)
  | errorString (msg : String)
  | errorfQ (pre : String) (arg : String)
deriving DecidableEq, Repr

/-- What `os.IsNotExist(err)` answers. -/
def Error.IsNotExist : Error → Bool
  | .io _ notExist _ => notExist
  | .errorString _ => false
  | .errorfQ _ _ => false

/-- What `errors.Is(err, unix.ENODEV)` answers. -/
def Error.IsENODEV : Error → Bool
  | .io _ _ enodev => enodev
  | .errorString _ => false
  | .errorfQ _ _ => false

/-- One observable step of a call: a store access or a pause.
`write dir file data` is `fscommon.WriteFile(dir, file, data)`,
`read dir file` is `fscommon.ReadFile(dir, file)`,
`sleep ms` is `time.Sleep(ms * time.Millisecond)`. -/
inductive Event where
  | write (dir : String) (file : String) (data : String)
  | read (dir : String) (file : String)
  | sleep (ms : Nat)
deriving DecidableEq, Repr

/-- The pseudo-file store as the controller sees it.  Each access is answered as a
function of the history of the call so far.  `WriteFile` answers `none` for a nil
error; `ReadFile` answers the content read or the error. -/
structure Store where
  WriteFile : List Event → String → String → String → Option Error
  ReadFile : List Event → String → String → Except Error String

/-! ## `strings.TrimSpace` -/

/-- The Go predicate `unicode.IsSpace`: the code points with the Unicode property
White_Space. -/
def isSpace (c : Char) : Bool :=
  let n := c.toNat
  n == 9 || n == 10 || n == 11 || n == 12 || n == 13 || n == 32 ||
  n == 0x85 || n == 0xA0 || n == 0x1680 || (0x2000 ≤ n && n ≤ 0x200A) ||
  n == 0x2028 || n == 0x2029 || n == 0x202F || n == 0x205F || n == 0x3000

/-- The Go function `strings.TrimSpace`: the string without its leading and
trailing white space. -/
def TrimSpace (s : String) : String :=
  String.mk ((s.data.dropWhile isSpace).reverse.dropWhile isSpace).reverse

/-! ## Store accesses, with the history they extend -/

/-- The call `fscommon.WriteFile(dir, file, data)` made after history `h`: the error
answered and the history extended by the access. -/
def writeFile (st : Store) (h : List Event) (dir file data : String) :
    Option Error × List Event :=
  (st.WriteFile h dir file data, h ++ [Event.write dir file data])

/-- The call `fscommon.ReadFile(dir, file)` made after history `h`. -/
def readFile (st : Store) (h : List Event) (dir file : String) :
    Except Error String × List Event :=
  (st.ReadFile h dir file, h ++ [Event.read dir file])

/-- The call `time.Sleep(ms * time.Millisecond)` made after history `h`. -/
def sleep (h : List Event) (ms : Nat) : List Event :=
  h ++ [Event.sleep ms]

/-! ## `FreezerGroup.Set` -/

/-- The loop `for i := 0; i < 1000; i++ { ... }` of `Set`, entered at index `i` with
`n = 1000 - i` iterations left and history `h`; followed by the statement after the
loop, `return errors.New("unable to freeze")`.  The result is the value the body of
`Set` returns (before the deferred function runs) and the history at that point.
The `logrus.Debugf` call touches neither the store nor the result and is left
out. -/
def freezeLoop (st : Store) (path : String) : Nat → Nat → List Event → Option Error × List Event
  | 0, _, h => (some (Error.errorString "unable to freeze"), h)
  | n + 1, i, h =>
    -- if i%50 == 49 { _ = WriteFile(path, "freezer.state", Thawed); Sleep(10ms) }
    let h1 := if i % 50 = 49 then sleep (writeFile st h path "freezer.state" Thawed).2 10 else h
    match writeFile st h1 path "freezer.state" Frozen with
    | (some err, h2) => (some err, h2)
    | (none, h2) =>
      match readFile st h2 path "freezer.state" with
      | (Except.error err, h3) => (some err, h3)
      | (Except.ok state, h3) =>
        let state := TrimSpace state
        if state = "FREEZING" then freezeLoop st path n (i + 1) h3
        else if state = Frozen then (none, h3)
        else (some (Error.errorString ("unexpected state " ++ TrimSpace state ++ " while freezing")), h3)

/-- The method `FreezerGroup.Set(path, r)`, called after history `h`: the error
returned (`none` for nil) and the history at return. -/
def Set (st : Store) (path : String) (r : Resources) (h : List Event) : Option Error × List Event :=
  if r.Freezer = Frozen then
    match freezeLoop st path 1000 0 h with
    | (some err, h1) =>
      -- deferred: if Err != nil { _ = WriteFile(path, "freezer.state", Thawed) }
      (some err, (writeFile st h1 path "freezer.state" Thawed).2)
    | (none, h1) => (none, h1)
  else if r.Freezer = Thawed then
    writeFile st h path "freezer.state" Thawed
  else if r.Freezer = Undefined then
    (none, h)
  else
    (some (Error.errorString ("Invalid argument '" ++ r.Freezer ++ "' to freezer.state")), h)

/-! ## `FreezerGroup.GetState` -/

/-- The method `FreezerGroup.GetState(path)`, called after history `h`.  The Go loop
`for { ... }` has no bound; `fuel` bounds the number of iterations the model runs,
and `none` means the fuel ran out before the loop returned. -/
def GetState (st : Store) (path : String) : Nat → List Event →
    Option ((FreezerState × Option Error) × List Event)
  | 0, _ => none
  | fuel + 1, h =>
    match readFile st h path "freezer.state" with
    | (Except.error err, h1) =>
      some ((Undefined, if err.IsNotExist || err.IsENODEV then none else some err), h1)
    | (Except.ok state, h1) =>
      let t := TrimSpace state
      if t = "THAWED" then some ((Thawed, none), h1)
      else if t = "FROZEN" then some ((Frozen, none), h1)
      else if t = "FREEZING" then GetState st path fuel (sleep h1 1)
      else some ((Undefined, some (Error.errorfQ "unknown freezer.state " state)), h1)

/-! ## Specification vocabulary: histories and store behaviours -/

/-- The number of reads of the state entry of `path` in a history. -/
def numReads (path : String) (h : List Event) : Nat :=
  h.count (Event.read path "freezer.state")

/-- The number of writes of `data` to the state entry of `path` in a history. -/
def numWrites (path : String) (data : String) (h : List Event) : Nat :=
  h.count (Event.write path "freezer.state" data)

/-- The number of pauses of `ms` milliseconds in a history. -/
def numSleeps (ms : Nat) (h : List Event) : Nat :=
  h.count (Event.sleep ms)

/-- The self-correction of attempt `i` of the freeze loop: a write of the thawed
value and a pause of 10ms when `i % 50 = 49`, nothing otherwise. -/
def interjection (path : String) (i : Nat) : List Event :=
  if i % 50 = 49 then [Event.write path "freezer.state" Thawed, Event.sleep 10] else []

/-- The events of attempt `i` of the freeze loop when it runs up to its read. -/
def attempt (path : String) (i : Nat) : List Event :=
  interjection path i ++ [Event.write path "freezer.state" Frozen, Event.read path "freezer.state"]

/-- The events of the attempts `0, ..., m - 1` of the freeze loop, each run up to
its read. -/
def attempts (path : String) : Nat → List Event
  | 0 => []
  | m + 1 => attempts path m ++ attempt path m

/-- The store answers the read of the state entry that follows exactly `j` earlier
reads of it (the read of attempt `j`) with a value that trims to `t`. -/
def ReadsAt (st : Store) (path : String) (j : Nat) (t : String) : Prop :=
  ∀ h, numReads path h = j →
    ∃ v, st.ReadFile h path "freezer.state" = Except.ok v ∧ TrimSpace v = t

/-- The store answers the read of the state entry that follows exactly `j` earlier
reads of it with the error `e`. -/
def ReadFailsAt (st : Store) (path : String) (j : Nat) (e : Error) : Prop :=
  ∀ h, numReads path h = j → st.ReadFile h path "freezer.state" = Except.error e

/-- The store answers the write of the frozen value that follows exactly `j`
earlier writes of it (the frozen write of attempt `j`) with `r`. -/
def FrozenWriteAt (st : Store) (path : String) (j : Nat) (r : Option Error) : Prop :=
  ∀ h, numWrites path Frozen h = j → st.WriteFile h path "freezer.state" Frozen = r

/-- The events of `n` rounds of `GetState` that each read the state entry and then
pause for 1ms. -/
def polls (path : String) : Nat → List Event
  | 0 => []
  | n + 1 => polls path n ++ [Event.read path "freezer.state", Event.sleep 1]

/-- A scripted store for `path`: the write of the frozen value that follows `j`
earlier such writes is answered by `wscript j`, every other write succeeds, and the
read that follows `j` earlier reads of the state entry is answered by `rscript j`. -/
def scripted (path : String) (wscript : Nat → Option Error)
    (rscript : Nat → Except Error String) : Store where
  WriteFile := fun h _ _ data => if data = Frozen then wscript (numWrites path Frozen h) else none
  ReadFile := fun h _ _ => rscript (numReads path h)

/-- The four ways a call `Set(path, Frozen)` can end. -/
inductive Exit where
  | success
  | storeError
  | unexpectedState
  | retryExhaustion
deriving DecidableEq, Repr

/-- The result `res` of a call `Set(path, Frozen)` over the store `st` ends in the way
`x`.  Each way is told by the access that settled the result and by what the store
answered to it:
* `success`: the last access is a read answered with a value that trims to `FROZEN`;
* `storeError`: the error returned is the one the store answered to the last write of
  `FROZEN` or to the last read, and only the deferred thaw follows;
* `unexpectedState`: the last read was answered with a value that trims to neither
  `FREEZING` nor `FROZEN`, the error names it, and only the deferred thaw follows;
* `retryExhaustion`: the last read is the 1000th and was answered with a value that
  trims to `FREEZING`, the error is `unable to freeze`, and only the deferred thaw
  follows. -/
def EndsIn (st : Store) (path : String) (res : Option Error × List Event) : Exit → Prop
  | Exit.success => ∃ pre v,
      res = (none, pre ++ [Event.read path "freezer.state"]) ∧
      st.ReadFile pre path "freezer.state" = Except.ok v ∧ TrimSpace v = "FROZEN"
  | Exit.storeError => ∃ pre e,
      (res = (some e, pre ++ [Event.write path "freezer.state" Frozen,
          Event.write path "freezer.state" Thawed]) ∧
        st.WriteFile pre path "freezer.state" Frozen = some e) ∨
      (res = (some e, pre ++ [Event.read path "freezer.state",
          Event.write path "freezer.state" Thawed]) ∧
        st.ReadFile pre path "freezer.state" = Except.error e)
  | Exit.unexpectedState => ∃ pre v,
      res = (some (Error.errorString ("unexpected state " ++ TrimSpace v ++ " while freezing")),
        pre ++ [Event.read path "freezer.state", Event.write path "freezer.state" Thawed]) ∧
      st.ReadFile pre path "freezer.state" = Except.ok v ∧
      TrimSpace v ≠ "FREEZING" ∧ TrimSpace v ≠ "FROZEN"
  | Exit.retryExhaustion => ∃ pre v,
      res = (some (Error.errorString "unable to freeze"),
        pre ++ [Event.read path "freezer.state", Event.write path "freezer.state" Thawed]) ∧
      st.ReadFile pre path "freezer.state" = Except.ok v ∧ TrimSpace v = "FREEZING" ∧
      numReads path pre = 999

/-- The store `st` with every write of the thawed value answered by the error `e`;
all other answers are those of `st`. -/
def thawFailing (st : Store) (e : Error) : Store where
  WriteFile := fun h dir file data => if data = Thawed then some e else st.WriteFile h dir file data
  ReadFile := st.ReadFile

/-- Two answers to a read are the same up to surrounding white space: the same
error, or two values with the same trimmed text. -/
def SameUpToSpace : Except Error String → Except Error String → Prop
  | Except.error e1, Except.error e2 => e1 = e2
  | Except.ok v1, Except.ok v2 => TrimSpace v1 = TrimSpace v2
  | _, _ => False

/-- The value of the last write to the state entry of `path` in a history, if there
is one. -/
def lastWritten (path : String) : List Event → Option String
  | [] => none
  | e :: h =>
    match lastWritten path h with
    | some x => some x
    | none =>
      match e with
      | Event.write dir file data =>
        if dir = path ∧ file = "freezer.state" then some data else none
      | _ => none

/-- A well-behaved store: every write succeeds, and a read of any entry answers the
last value written to the state entry of `path` followed by a newline (`THAWED` when
nothing was written yet). -/
def echoStore (path : String) : Store where
  WriteFile := fun _ _ _ _ => none
  ReadFile := fun h _ _ =>
    match lastWritten path h with
    | some x => Except.ok (x ++ "\n")
    | none => Except.ok "THAWED\n"

/-- The history `tr` from the write of `FROZEN` that follows `j` earlier such writes
on (the write of attempt `j` of the freeze loop); empty when there is none. -/
def eventsFromFrozenWrite (path : String) : Nat → List Event → List Event
  | _, [] => []
  | j, e :: tr =>
    if e = Event.write path "freezer.state" Frozen then
      match j with
      | 0 => e :: tr
      | j + 1 => eventsFromFrozenWrite path j tr
    else eventsFromFrozenWrite path j tr

/-- In the history `tr` the self-correction (a write of `THAWED` and a pause of 10ms)
stands right after the write of `FROZEN` and the read of attempt `j`, and right
before the next write of `FROZEN`. -/
def SelfCorrectionAfter (path : String) (tr : List Event) (j : Nat) : Prop :=
  ∃ pre post, tr = pre ++ [Event.write path "freezer.state" Frozen,
      Event.read path "freezer.state", Event.write path "freezer.state" Thawed,
      Event.sleep 10, Event.write path "freezer.state" Frozen] ++ post ∧
    numWrites path Frozen pre = j

/-! ## Counting events -/

theorem numReads_append (path : String) (a b : List Event) :
    numReads path (a ++ b) = numReads path a + numReads path b := by
  simp [numReads, List.count_append]

theorem numWrites_append (path data : String) (a b : List Event) :
    numWrites path data (a ++ b) = numWrites path data a + numWrites path data b := by
  simp [numWrites, List.count_append]

theorem numSleeps_append (ms : Nat) (a b : List Event) :
    numSleeps ms (a ++ b) = numSleeps ms a + numSleeps ms b := by
  simp [numSleeps, List.count_append]

theorem numReads_interjection (path : String) (i : Nat) :
    numReads path (interjection path i) = 0 := by
  unfold interjection numReads
  split <;> simp [List.count_cons]

theorem numWrites_Frozen_interjection (path : String) (i : Nat) :
    numWrites path Frozen (interjection path i) = 0 := by
  unfold interjection numWrites
  split <;> simp [List.count_cons, Thawed, Frozen]

theorem numWrites_Thawed_interjection (path : String) (i : Nat) :
    numWrites path Thawed (interjection path i) = if i % 50 = 49 then 1 else 0 := by
  unfold interjection numWrites
  split <;> simp [List.count_cons]

theorem numSleeps_interjection (path : String) (i : Nat) :
    numSleeps 10 (interjection path i) = if i % 50 = 49 then 1 else 0 := by
  unfold interjection numSleeps
  split <;> simp [List.count_cons]

theorem numReads_attempt (path : String) (i : Nat) : numReads path (attempt path i) = 1 := by
  unfold attempt
  rw [numReads_append, numReads_interjection]
  simp [numReads, List.count_cons]

theorem numWrites_Frozen_attempt (path : String) (i : Nat) :
    numWrites path Frozen (attempt path i) = 1 := by
  unfold attempt
  rw [numWrites_append, numWrites_Frozen_interjection]
  simp [numWrites, List.count_cons]

theorem numWrites_Thawed_attempt (path : String) (i : Nat) :
    numWrites path Thawed (attempt path i) = if i % 50 = 49 then 1 else 0 := by
  unfold attempt
  rw [numWrites_append, numWrites_Thawed_interjection]
  simp [numWrites, List.count_cons, Thawed, Frozen]

theorem numSleeps_attempt (path : String) (i : Nat) :
    numSleeps 10 (attempt path i) = if i % 50 = 49 then 1 else 0 := by
  unfold attempt
  rw [numSleeps_append, numSleeps_interjection]
  simp [numSleeps, List.count_cons]

theorem numReads_attempts (path : String) (m : Nat) : numReads path (attempts path m) = m := by
  induction m with
  | zero => simp [attempts, numReads]
  | succ m ih => rw [attempts, numReads_append, ih, numReads_attempt]

theorem numWrites_Frozen_attempts (path : String) (m : Nat) :
    numWrites path Frozen (attempts path m) = m := by
  induction m with
  | zero => simp [attempts, numWrites]
  | succ m ih => rw [attempts, numWrites_append, ih, numWrites_Frozen_attempt]

theorem numWrites_Thawed_attempts (path : String) (m : Nat) :
    numWrites path Thawed (attempts path m) = m / 50 := by
  induction m with
  | zero => simp [attempts, numWrites]
  | succ m ih =>
    rw [attempts, numWrites_append, ih, numWrites_Thawed_attempt]
    split <;> omega

theorem numSleeps_attempts (path : String) (m : Nat) :
    numSleeps 10 (attempts path m) = m / 50 := by
  induction m with
  | zero => simp [attempts, numSleeps]
  | succ m ih =>
    rw [attempts, numSleeps_append, ih, numSleeps_attempt]
    split <;> omega

/-! ## Trimming -/

theorem dropWhile_rdropWhile_dropWhile {α : Type} (p : α → Bool) (l : List α) :
    List.dropWhile p (List.rdropWhile p (List.dropWhile p l)) =
      List.rdropWhile p (List.dropWhile p l) := by
  obtain ⟨t, ht⟩ := List.rdropWhile_prefix p (l := List.dropWhile p l)
  cases hB : List.rdropWhile p (List.dropWhile p l) with
  | nil => rfl
  | cons b B =>
    rw [hB] at ht
    have hn := List.head?_dropWhile_not p l
    rw [← ht] at hn
    simp only [List.cons_append, List.head?_cons] at hn
    exact List.dropWhile_cons_of_neg (by simpa using hn)

/-- Trimming a trimmed string changes nothing. -/
theorem TrimSpace_idem (s : String) : TrimSpace (TrimSpace s) = TrimSpace s := by
  have h := dropWhile_rdropWhile_dropWhile isSpace s.data
  have h2 := List.rdropWhile_idempotent isSpace (l := List.dropWhile isSpace s.data)
  simp only [List.rdropWhile] at h h2
  simp only [TrimSpace]
  rw [h, h2]

/-! ## One attempt of the freeze loop -/

theorem interjection_history (st : Store) (path : String) (i : Nat) (h : List Event) :
    (if i % 50 = 49 then sleep (writeFile st h path "freezer.state" Thawed).2 10 else h) =
      h ++ interjection path i := by
  unfold interjection
  split <;> simp [sleep, writeFile]

/-- An attempt whose frozen write fails returns that error right after the write. -/
theorem freezeLoop_write_fails (st : Store) (path : String) (n i : Nat) (h : List Event)
    (e : Error)
    (hw : st.WriteFile (h ++ interjection path i) path "freezer.state" Frozen = some e) :
    freezeLoop st path (n + 1) i h =
      (some e, h ++ interjection path i ++ [Event.write path "freezer.state" Frozen]) := by
  rw [freezeLoop, interjection_history]
  simp only [writeFile, hw]

/-- An attempt whose read-back fails returns that error right after the read. -/
theorem freezeLoop_read_fails (st : Store) (path : String) (n i : Nat) (h : List Event)
    (e : Error)
    (hw : st.WriteFile (h ++ interjection path i) path "freezer.state" Frozen = none)
    (hr : st.ReadFile (h ++ interjection path i ++ [Event.write path "freezer.state" Frozen])
      path "freezer.state" = Except.error e) :
    freezeLoop st path (n + 1) i h = (some e, h ++ attempt path i) := by
  rw [freezeLoop, interjection_history]
  simp only [writeFile, hw, readFile, hr]
  simp [attempt]

/-- An attempt that reads back `FREEZING` goes on with the next attempt. -/
theorem freezeLoop_freezing (st : Store) (path : String) (n i : Nat) (h : List Event)
    (v : String)
    (hw : st.WriteFile (h ++ interjection path i) path "freezer.state" Frozen = none)
    (hr : st.ReadFile (h ++ interjection path i ++ [Event.write path "freezer.state" Frozen])
      path "freezer.state" = Except.ok v)
    (hv : TrimSpace v = "FREEZING") :
    freezeLoop st path (n + 1) i h = freezeLoop st path n (i + 1) (h ++ attempt path i) := by
  rw [freezeLoop, interjection_history]
  simp only [writeFile, hw, readFile, hr, hv]
  simp [attempt]

/-- An attempt that reads back the frozen value returns nil. -/
theorem freezeLoop_frozen (st : Store) (path : String) (n i : Nat) (h : List Event)
    (v : String)
    (hw : st.WriteFile (h ++ interjection path i) path "freezer.state" Frozen = none)
    (hr : st.ReadFile (h ++ interjection path i ++ [Event.write path "freezer.state" Frozen])
      path "freezer.state" = Except.ok v)
    (hv : TrimSpace v = "FROZEN") :
    freezeLoop st path (n + 1) i h = (none, h ++ attempt path i) := by
  rw [freezeLoop, interjection_history]
  simp only [writeFile, hw, readFile, hr, hv]
  simp [attempt, Frozen]

/-- An attempt that reads back any other value returns the unexpected-state error. -/
theorem freezeLoop_unexpected (st : Store) (path : String) (n i : Nat) (h : List Event)
    (v : String)
    (hw : st.WriteFile (h ++ interjection path i) path "freezer.state" Frozen = none)
    (hr : st.ReadFile (h ++ interjection path i ++ [Event.write path "freezer.state" Frozen])
      path "freezer.state" = Except.ok v)
    (h1 : TrimSpace v ≠ "FREEZING") (h2 : TrimSpace v ≠ "FROZEN") :
    freezeLoop st path (n + 1) i h =
      (some (Error.errorString
        ("unexpected state " ++ TrimSpace (TrimSpace v) ++ " while freezing")),
       h ++ attempt path i) := by
  rw [freezeLoop, interjection_history]
  simp only [writeFile, hw, readFile, hr]
  simp [attempt, Frozen, h1, h2]

/-- While the frozen writes succeed and the reads answer `FREEZING`, the loop runs
attempt after attempt: after `m` such attempts it stands at index `m` with the
history `attempts path m`. -/
theorem freezeLoop_attempts (st : Store) (path : String) (m : Nat)
    (hw : ∀ j, j < m → FrozenWriteAt st path j none)
    (hr : ∀ j, j < m → ReadsAt st path j "FREEZING") (n : Nat) :
    freezeLoop st path (m + n) 0 [] = freezeLoop st path n m (attempts path m) := by
  induction m generalizing n with
  | zero => simp [attempts]
  | succ m ih =>
    have hw1 : ∀ j, j < m → FrozenWriteAt st path j none := fun j hj => hw j (by omega)
    have hr1 : ∀ j, j < m → ReadsAt st path j "FREEZING" := fun j hj => hr j (by omega)
    have e : m + 1 + n = m + (n + 1) := by omega
    rw [e, ih hw1 hr1 (n + 1)]
    obtain ⟨v, hv, ht⟩ := hr m (by omega)
      (attempts path m ++ interjection path m ++ [Event.write path "freezer.state" Frozen])
      (by
        rw [numReads_append, numReads_append, numReads_attempts, numReads_interjection]
        simp [numReads, List.count_cons])
    have hwm := hw m (by omega) (attempts path m ++ interjection path m)
      (by simp [numWrites_append, numWrites_Frozen_attempts, numWrites_Frozen_interjection])
    rw [freezeLoop_freezing st path n m _ v hwm hv ht]
    rfl

/-- Every run of the loop that makes at least one attempt ends on a read, or on a
failed write of the frozen value. -/
theorem freezeLoop_ends (st : Store) (path : String) (n i : Nat) (h : List Event)
    (h0 : n = 0 → ∃ pre, h = pre ++ [Event.read path "freezer.state"]) :
    (∃ pre, (freezeLoop st path n i h).2 = pre ++ [Event.read path "freezer.state"]) ∨
    ((freezeLoop st path n i h).1 ≠ none ∧
      ∃ pre, (freezeLoop st path n i h).2 = pre ++ [Event.write path "freezer.state" Frozen]) := by
  induction n generalizing i h with
  | zero => exact Or.inl (by simpa [freezeLoop] using h0 rfl)
  | succ n ih =>
    have hsplit : h ++ attempt path i =
        (h ++ interjection path i ++ [Event.write path "freezer.state" Frozen]) ++
          [Event.read path "freezer.state"] := by simp [attempt]
    cases hw : st.WriteFile (h ++ interjection path i) path "freezer.state" Frozen with
    | some e =>
      rw [freezeLoop_write_fails st path n i h e hw]
      exact Or.inr ⟨by simp, _, rfl⟩
    | none =>
      cases hr : st.ReadFile (h ++ interjection path i ++
          [Event.write path "freezer.state" Frozen]) path "freezer.state" with
      | error e =>
        rw [freezeLoop_read_fails st path n i h e hw hr]
        exact Or.inl ⟨_, hsplit⟩
      | ok v =>
        by_cases h1 : TrimSpace v = "FREEZING"
        · rw [freezeLoop_freezing st path n i h v hw hr h1]
          exact ih (i + 1) (h ++ attempt path i) (fun _ => ⟨_, hsplit⟩)
        · by_cases h2 : TrimSpace v = "FROZEN"
          · rw [freezeLoop_frozen st path n i h v hw hr h2]
            exact Or.inl ⟨_, hsplit⟩
          · rw [freezeLoop_unexpected st path n i h v hw hr h1 h2]
            exact Or.inl ⟨_, hsplit⟩

/-- The loop consults the store only through its reads and its writes of the frozen
value: two stores that agree on those run the loop alike. -/
theorem freezeLoop_congr (st st2 : Store) (path : String)
    (hr : ∀ h, st2.ReadFile h path "freezer.state" = st.ReadFile h path "freezer.state")
    (hw : ∀ h, st2.WriteFile h path "freezer.state" Frozen =
      st.WriteFile h path "freezer.state" Frozen)
    (n i : Nat) (h : List Event) :
    freezeLoop st2 path n i h = freezeLoop st path n i h := by
  induction n generalizing i h with
  | zero => rfl
  | succ n ih =>
    rw [freezeLoop, freezeLoop, interjection_history, interjection_history]
    simp only [writeFile, readFile, hr, hw, ih]

/-- The deferred function of `Set` after a body that returned an error. -/
theorem Set_Frozen_of_error (st : Store) (path : String) (h h1 : List Event) (e : Error)
    (hb : freezeLoop st path 1000 0 h = (some e, h1)) :
    Set st path ⟨Frozen⟩ h = (some e, h1 ++ [Event.write path "freezer.state" Thawed]) := by
  simp [Set, hb, writeFile]

/-- The deferred function of `Set` after a body that returned nil. -/
theorem Set_Frozen_of_nil (st : Store) (path : String) (h h1 : List Event)
    (hb : freezeLoop st path 1000 0 h = (none, h1)) :
    Set st path ⟨Frozen⟩ h = (none, h1) := by
  simp [Set, hb]

/-! ## Scripted stores answer as scripted -/

theorem scripted_FrozenWriteAt (path : String) (w : Nat → Option Error)
    (r : Nat → Except Error String) (j : Nat) :
    FrozenWriteAt (scripted path w r) path j (w j) := by
  intro h hh
  simp [scripted, hh]

theorem scripted_ReadsAt (path : String) (w : Nat → Option Error)
    (r : Nat → Except Error String) (j : Nat) (v t : String)
    (hv : r j = Except.ok v) (ht : TrimSpace v = t) :
    ReadsAt (scripted path w r) path j t := by
  intro h hh
  exact ⟨v, by simp [scripted, hh, hv], ht⟩

theorem scripted_ReadFailsAt (path : String) (w : Nat → Option Error)
    (r : Nat → Except Error String) (j : Nat) (e : Error) (hv : r j = Except.error e) :
    ReadFailsAt (scripted path w r) path j e := by
  intro h hh
  simp [scripted, hh, hv]

/-! ## `Set(path, Frozen)`: success and exhaustion -/

/-- C1: if every write succeeds and the state entry reads back `FREEZING` (after
trimming) on the attempts `0, ..., k - 1` and `FROZEN` on attempt `k < 1000`, then
`Set(path, Frozen)` returns nil after the attempts `0, ..., k` and nothing else:
exactly `k + 1` writes of `FROZEN`, exactly `k + 1` reads and exactly
`(k + 1) / 50` writes of `THAWED`, each followed by a 10ms pause. -/
theorem Set_Frozen_succeeds_at_attempt (st : Store) (path : String) (k : Nat)
    (hk : k < 1000)
    (hwrites : ∀ h dir file data, st.WriteFile h dir file data = none)
    (hfreezing : ∀ j, j < k → ReadsAt st path j "FREEZING")
    (hfrozen : ReadsAt st path k "FROZEN") :
    Set st path ⟨Frozen⟩ [] = (none, attempts path (k + 1)) ∧
    numWrites path Frozen (Set st path ⟨Frozen⟩ []).2 = k + 1 ∧
    numReads path (Set st path ⟨Frozen⟩ []).2 = k + 1 ∧
    numWrites path Thawed (Set st path ⟨Frozen⟩ []).2 = (k + 1) / 50 ∧
    numSleeps 10 (Set st path ⟨Frozen⟩ []).2 = (k + 1) / 50 := by
  have hrun : Set st path ⟨Frozen⟩ [] = (none, attempts path (k + 1)) := by
    apply Set_Frozen_of_nil
    obtain ⟨n, hn⟩ : ∃ n, 1000 = k + (n + 1) := ⟨1000 - k - 1, by omega⟩
    rw [hn, freezeLoop_attempts st path k (fun j _ h _ => hwrites h _ _ _) hfreezing (n + 1)]
    obtain ⟨v, hv, ht⟩ := hfrozen
      (attempts path k ++ interjection path k ++ [Event.write path "freezer.state" Frozen])
      (by
        rw [numReads_append, numReads_append, numReads_attempts, numReads_interjection]
        simp [numReads, List.count_cons])
    rw [freezeLoop_frozen st path n k _ v (hwrites _ _ _ _) hv ht]
    rfl
  rw [hrun]
  exact ⟨rfl, numWrites_Frozen_attempts path (k + 1), numReads_attempts path (k + 1),
    numWrites_Thawed_attempts path (k + 1), numSleeps_attempts path (k + 1)⟩

/-- C1, at concrete stores: a store that answers `FROZEN` at once makes `Set` succeed
after the one attempt `write FROZEN, read`, with no thaw; a store that answers
`FREEZING` 49 times and then `FROZEN` makes it succeed after 50 attempts with
exactly one thaw. -/
theorem Set_Frozen_succeeds_at_attempt_witness :
    Set (scripted "/g" (fun _ => none) (fun _ => Except.ok "FROZEN\n")) "/g" ⟨Frozen⟩ [] =
      (none, [Event.write "/g" "freezer.state" "FROZEN", Event.read "/g" "freezer.state"]) ∧
    numWrites "/g" Thawed (Set (scripted "/g" (fun _ => none)
      (fun j => if j < 49 then Except.ok "FREEZING\n" else Except.ok "FROZEN\n"))
      "/g" ⟨Frozen⟩ []).2 = 1 :=
  ⟨(Set_Frozen_succeeds_at_attempt (scripted "/g" (fun _ => none)
      (fun _ => Except.ok "FROZEN\n")) "/g" 0 (by decide)
      (fun _ _ _ _ => by simp [scripted]) (fun j hj => absurd hj (Nat.not_lt_zero j))
      (fun _ _ => ⟨"FROZEN\n", rfl, by decide⟩)).1,
   (Set_Frozen_succeeds_at_attempt (scripted "/g" (fun _ => none)
      (fun j => if j < 49 then Except.ok "FREEZING\n" else Except.ok "FROZEN\n")) "/g" 49
      (by decide) (fun _ _ _ _ => by simp [scripted])
      (fun j hj h hh => ⟨"FREEZING\n", by simp [scripted, hh, hj], by decide⟩)
      (fun h hh => ⟨"FROZEN\n", by simp [scripted, hh], by decide⟩)).2.2.2.1⟩

/-- C2: if every write succeeds and every read of the state entry answers
`FREEZING` (after trimming), then `Set(path, Frozen)` makes exactly the 1000
attempts (1000 writes of `FROZEN`, 1000 reads), interjects a thaw and a 10ms pause
exactly 20 times inside the loop, at the attempts 49, 99, ..., 999, and returns the
error `unable to freeze`; the one further access is the deferred thaw. -/
theorem Set_Frozen_always_freezing (st : Store) (path : String)
    (hwrites : ∀ h dir file data, st.WriteFile h dir file data = none)
    (hreads : ∀ h, ∃ v, st.ReadFile h path "freezer.state" = Except.ok v ∧
      TrimSpace v = "FREEZING") :
    Set st path ⟨Frozen⟩ [] =
      (some (Error.errorString "unable to freeze"),
       attempts path 1000 ++ [Event.write path "freezer.state" Thawed]) ∧
    numWrites path Frozen (Set st path ⟨Frozen⟩ []).2 = 1000 ∧
    numReads path (Set st path ⟨Frozen⟩ []).2 = 1000 ∧
    numSleeps 10 (Set st path ⟨Frozen⟩ []).2 = 20 ∧
    numWrites path Thawed (attempts path 1000) = 20 ∧
    (∀ i, i < 1000 → (interjection path i ≠ [] ↔ ∃ j, j < 20 ∧ i = 50 * j + 49)) := by
  have hrun : Set st path ⟨Frozen⟩ [] =
      (some (Error.errorString "unable to freeze"),
       attempts path 1000 ++ [Event.write path "freezer.state" Thawed]) := by
    apply Set_Frozen_of_error
    have h := freezeLoop_attempts st path 1000 (fun j _ h _ => hwrites h _ _ _)
      (fun j _ h _ => hreads h) 0
    rw [h]
    rfl
  rw [hrun]
  refine ⟨rfl, ?_, ?_, ?_, numWrites_Thawed_attempts path 1000, ?_⟩
  · rw [numWrites_append, numWrites_Frozen_attempts]
    simp [numWrites, List.count_cons, Thawed, Frozen]
  · rw [numReads_append, numReads_attempts]
    simp [numReads, List.count_cons]
  · rw [numSleeps_append, numSleeps_attempts]
    simp [numSleeps, List.count_cons]
  · intro i hi
    have hne : interjection path i ≠ [] ↔ i % 50 = 49 := by
      unfold interjection
      split <;> simp [*]
    rw [hne]
    constructor
    · intro h
      exact ⟨i / 50, by omega, by omega⟩
    · rintro ⟨j, _, rfl⟩
      omega

/-- C2, at the store that always answers `FREEZING`: the error returned is the
retry-exhaustion error. -/
theorem Set_Frozen_always_freezing_witness :
    (Set (scripted "/g" (fun _ => none) (fun _ => Except.ok "FREEZING\n")) "/g" ⟨Frozen⟩ []).1 =
      some (Error.errorString "unable to freeze") ∧
    numReads "/g" (Set (scripted "/g" (fun _ => none) (fun _ => Except.ok "FREEZING\n"))
      "/g" ⟨Frozen⟩ []).2 = 1000 :=
  have h := Set_Frozen_always_freezing
    (scripted "/g" (fun _ => none) (fun _ => Except.ok "FREEZING\n")) "/g"
    (fun _ _ _ _ => by simp [scripted]) (fun _ => ⟨"FREEZING\n", rfl, by decide⟩)
  ⟨by rw [h.1], h.2.2.1⟩

/-! ## `Set(path, Frozen)`: the deferred corrective thaw -/

/-- C3: for every store, `Set(path, Frozen)` returns what its freeze loop returned.
When that is an error, the history of the call is the history of the loop, which
ends on the failed write of `FROZEN` or on the read that settled the error,
followed by exactly one write of `THAWED`; when it is nil, nothing is added and
the last access is the read that answered `FROZEN`.  The answers of the store to
writes of other values than `FROZEN`, the corrective thaw among them, change
neither the error returned nor the accesses made. -/
theorem Set_Frozen_corrective_thaw (st : Store) (path : String) :
    (Set st path ⟨Frozen⟩ []).1 = (freezeLoop st path 1000 0 []).1 ∧
    (∀ e, (Set st path ⟨Frozen⟩ []).1 = some e →
      (Set st path ⟨Frozen⟩ []).2 =
        (freezeLoop st path 1000 0 []).2 ++ [Event.write path "freezer.state" Thawed] ∧
      ∃ pre, (freezeLoop st path 1000 0 []).2 = pre ++ [Event.write path "freezer.state" Frozen] ∨
        (freezeLoop st path 1000 0 []).2 = pre ++ [Event.read path "freezer.state"]) ∧
    ((Set st path ⟨Frozen⟩ []).1 = none →
      (Set st path ⟨Frozen⟩ []).2 = (freezeLoop st path 1000 0 []).2 ∧
      ∃ pre, (Set st path ⟨Frozen⟩ []).2 = pre ++ [Event.read path "freezer.state"]) ∧
    (∀ st2 : Store,
      (∀ h, st2.ReadFile h path "freezer.state" = st.ReadFile h path "freezer.state") →
      (∀ h, st2.WriteFile h path "freezer.state" Frozen =
        st.WriteFile h path "freezer.state" Frozen) →
      Set st2 path ⟨Frozen⟩ [] = Set st path ⟨Frozen⟩ []) := by
  have hends := freezeLoop_ends st path 1000 0 [] (fun h => absurd h (by decide))
  refine ⟨?_, ?_, ?_, ?_⟩
  · cases hb : freezeLoop st path 1000 0 [] with
    | mk err h1 =>
      cases err with
      | some e => rw [Set_Frozen_of_error st path [] h1 e hb]
      | none => rw [Set_Frozen_of_nil st path [] h1 hb]
  · intro e he
    cases hb : freezeLoop st path 1000 0 [] with
    | mk err h1 =>
      rw [hb] at hends
      cases err with
      | some e1 =>
        rw [Set_Frozen_of_error st path [] h1 e1 hb]
        refine ⟨rfl, ?_⟩
        rcases hends with ⟨pre, hp⟩ | ⟨_, pre, hp⟩
        · exact ⟨pre, Or.inr hp⟩
        · exact ⟨pre, Or.inl hp⟩
      | none =>
        rw [Set_Frozen_of_nil st path [] h1 hb] at he
        simp at he
  · intro hn
    cases hb : freezeLoop st path 1000 0 [] with
    | mk err h1 =>
      rw [hb] at hends
      cases err with
      | some e1 =>
        rw [Set_Frozen_of_error st path [] h1 e1 hb] at hn
        simp at hn
      | none =>
        rw [Set_Frozen_of_nil st path [] h1 hb]
        refine ⟨rfl, ?_⟩
        rcases hends with ⟨pre, hp⟩ | ⟨hne, _⟩
        · exact ⟨pre, hp⟩
        · exact absurd rfl hne
  · intro st2 hr hw
    simp only [Set, if_true, freezeLoop_congr st st2 path hr hw, writeFile]

/-! ## `Set` with the other desired values -/

/-- C4: `Set(path, r)` with `r.Freezer = Undefined` returns nil and leaves the
history as it found it: no read, no write, no pause. -/
theorem Set_Undefined (st : Store) (path : String) (h : List Event) :
    Set st path ⟨Undefined⟩ h = (none, h) := by
  simp [Set, Undefined, Frozen, Thawed]

/-- C5: `Set(path, r)` with `r.Freezer = Thawed` makes exactly one access, the write
of `THAWED` to the state entry, and returns exactly what the store answered to it. -/
theorem Set_Thawed (st : Store) (path : String) (h : List Event) :
    Set st path ⟨Thawed⟩ h =
      (st.WriteFile h path "freezer.state" "THAWED",
       h ++ [Event.write path "freezer.state" "THAWED"]) := by
  simp [Set, Frozen, Thawed, writeFile]

/-- C6: for a desired value `v` that is none of `FROZEN`, `THAWED` and the empty
value, `Set` returns the error `Invalid argument 'v' to freezer.state`, whose
message contains `v`, and leaves the history as it found it. -/
theorem Set_invalid_argument (st : Store) (path : String) (v : FreezerState)
    (h : List Event) (h1 : v ≠ "FROZEN") (h2 : v ≠ "THAWED") (h3 : v ≠ "") :
    Set st path ⟨v⟩ h =
      (some (Error.errorString ("Invalid argument '" ++ v ++ "' to freezer.state")), h) ∧
    ∃ pre post, (Set st path ⟨v⟩ h).1 = some (Error.errorString (pre ++ v ++ post)) := by
  have hrun : Set st path ⟨v⟩ h =
      (some (Error.errorString ("Invalid argument '" ++ v ++ "' to freezer.state")), h) := by
    simp [Set, Undefined, Frozen, Thawed, h1, h2, h3]
  exact ⟨hrun, "Invalid argument '", "' to freezer.state", by rw [hrun]⟩

/-- C6, at the desired value `FREEZING`: rejected with no store access. -/
theorem Set_invalid_argument_witness :
    Set (scripted "/g" (fun _ => none) (fun _ => Except.ok "THAWED\n")) "/g" ⟨"FREEZING"⟩ [] =
      (some (Error.errorString "Invalid argument 'FREEZING' to freezer.state"), []) :=
  (Set_invalid_argument (scripted "/g" (fun _ => none) (fun _ => Except.ok "THAWED\n"))
    "/g" "FREEZING" [] (by decide) (by decide) (by decide)).1

/-! ## `Set(path, Frozen)`: the fatal exits of an attempt -/

/-- C7: when the attempts before `k < 1000` all read `FREEZING` and attempt `k`
reads back a value that trims to `t`, neither `FREEZING` nor `FROZEN`, then
`Set(path, Frozen)` returns the error `unexpected state t while freezing`, and
after that read the only access is the deferred thaw: no further write of
`FROZEN`, no further read. -/
theorem Set_Frozen_unexpected_state (st : Store) (path : String) (k : Nat) (t : String)
    (hk : k < 1000)
    (hw : ∀ j, j ≤ k → FrozenWriteAt st path j none)
    (hfreezing : ∀ j, j < k → ReadsAt st path j "FREEZING")
    (hread : ReadsAt st path k t) (h1 : t ≠ "FREEZING") (h2 : t ≠ "FROZEN") :
    Set st path ⟨Frozen⟩ [] =
      (some (Error.errorString ("unexpected state " ++ t ++ " while freezing")),
       attempts path k ++ interjection path k ++
         [Event.write path "freezer.state" Frozen, Event.read path "freezer.state",
          Event.write path "freezer.state" Thawed]) ∧
    numWrites path Frozen (Set st path ⟨Frozen⟩ []).2 = k + 1 ∧
    numReads path (Set st path ⟨Frozen⟩ []).2 = k + 1 := by
  have hrun : Set st path ⟨Frozen⟩ [] =
      (some (Error.errorString ("unexpected state " ++ t ++ " while freezing")),
       attempts path (k + 1) ++ [Event.write path "freezer.state" Thawed]) := by
    apply Set_Frozen_of_error
    obtain ⟨n, hn⟩ : ∃ n, 1000 = k + (n + 1) := ⟨1000 - k - 1, by omega⟩
    rw [hn, freezeLoop_attempts st path k (fun j hj => hw j (by omega)) hfreezing (n + 1)]
    obtain ⟨v, hv, ht⟩ := hread
      (attempts path k ++ interjection path k ++ [Event.write path "freezer.state" Frozen])
      (by
        rw [numReads_append, numReads_append, numReads_attempts, numReads_interjection]
        simp [numReads, List.count_cons])
    have hwk := hw k (Nat.le_refl k) (attempts path k ++ interjection path k)
      (by rw [numWrites_append, numWrites_Frozen_attempts, numWrites_Frozen_interjection]; rfl)
    rw [freezeLoop_unexpected st path n k _ v hwk hv (ht ▸ h1) (ht ▸ h2), TrimSpace_idem, ht]
    rfl
  refine ⟨?_, ?_, ?_⟩
  · rw [hrun]
    simp [attempts, attempt]
  · rw [hrun, numWrites_append, numWrites_Frozen_attempts]
    simp [numWrites, List.count_cons, Thawed, Frozen]
  · rw [hrun, numReads_append, numReads_attempts]
    simp [numReads, List.count_cons]

/-- C7, at a store that answers `FREEZING` twice and then `THAWED`: the third
attempt aborts the call. -/
theorem Set_Frozen_unexpected_state_witness :
    Set (scripted "/g" (fun _ => none)
      (fun j => if j < 2 then Except.ok "FREEZING\n" else Except.ok "THAWED\n"))
      "/g" ⟨Frozen⟩ [] =
      (some (Error.errorString "unexpected state THAWED while freezing"),
       [Event.write "/g" "freezer.state" "FROZEN", Event.read "/g" "freezer.state",
        Event.write "/g" "freezer.state" "FROZEN", Event.read "/g" "freezer.state",
        Event.write "/g" "freezer.state" "FROZEN", Event.read "/g" "freezer.state",
        Event.write "/g" "freezer.state" "THAWED"]) :=
  (Set_Frozen_unexpected_state (scripted "/g" (fun _ => none)
      (fun j => if j < 2 then Except.ok "FREEZING\n" else Except.ok "THAWED\n"))
    "/g" 2 "THAWED" (by decide)
    (fun j _ => scripted_FrozenWriteAt "/g" _ _ j)
    (fun j hj => scripted_ReadsAt "/g" _ _ j "FREEZING\n" "FREEZING" (by simp [hj]) (by decide))
    (scripted_ReadsAt "/g" _ _ 2 "THAWED\n" "THAWED" (by simp) (by decide))
    (by decide) (by decide)).1

/-- C8: when the attempts before `k < 1000` all read `FREEZING`: if the write of
`FROZEN` of attempt `k` fails with `e`, then `Set(path, Frozen)` returns exactly
`e` and attempt `k` makes no read; if that write succeeds and the read-back fails
with `e`, then `Set` returns exactly `e`.  In both cases the only later access is
the deferred thaw. -/
theorem Set_Frozen_io_failure (st : Store) (path : String) (k : Nat) (e : Error)
    (hk : k < 1000)
    (hw : ∀ j, j < k → FrozenWriteAt st path j none)
    (hfreezing : ∀ j, j < k → ReadsAt st path j "FREEZING") :
    (FrozenWriteAt st path k (some e) →
      Set st path ⟨Frozen⟩ [] =
        (some e, attempts path k ++ interjection path k ++
          [Event.write path "freezer.state" Frozen,
           Event.write path "freezer.state" Thawed]) ∧
      numReads path (Set st path ⟨Frozen⟩ []).2 = k ∧
      numWrites path Frozen (Set st path ⟨Frozen⟩ []).2 = k + 1) ∧
    (FrozenWriteAt st path k none → ReadFailsAt st path k e →
      Set st path ⟨Frozen⟩ [] =
        (some e, attempts path k ++ interjection path k ++
          [Event.write path "freezer.state" Frozen, Event.read path "freezer.state",
           Event.write path "freezer.state" Thawed]) ∧
      numReads path (Set st path ⟨Frozen⟩ []).2 = k + 1 ∧
      numWrites path Frozen (Set st path ⟨Frozen⟩ []).2 = k + 1) := by
  obtain ⟨n, hn⟩ : ∃ n, 1000 = k + (n + 1) := ⟨1000 - k - 1, by omega⟩
  have hloop := freezeLoop_attempts st path k hw hfreezing (n + 1)
  rw [← hn] at hloop
  have hcw : numWrites path Frozen (attempts path k ++ interjection path k) = k := by
    rw [numWrites_append, numWrites_Frozen_attempts, numWrites_Frozen_interjection]; rfl
  have hcr : numReads path (attempts path k ++ interjection path k ++
      [Event.write path "freezer.state" Frozen]) = k := by
    rw [numReads_append, numReads_append, numReads_attempts, numReads_interjection]
    simp [numReads, List.count_cons]
  constructor
  · intro hfail
    have hrun : Set st path ⟨Frozen⟩ [] =
        (some e, attempts path k ++ interjection path k ++
          [Event.write path "freezer.state" Frozen] ++
          [Event.write path "freezer.state" Thawed]) := by
      apply Set_Frozen_of_error
      rw [hloop, freezeLoop_write_fails st path n k _ e (hfail _ hcw)]
    refine ⟨?_, ?_, ?_⟩
    · rw [hrun]; simp
    · rw [hrun, numReads_append, hcr]
      simp [numReads, List.count_cons]
    · rw [hrun, numWrites_append, numWrites_append, hcw]
      simp [numWrites, List.count_cons, Thawed, Frozen]
  · intro hok hfail
    have hrun : Set st path ⟨Frozen⟩ [] =
        (some e, attempts path (k + 1) ++ [Event.write path "freezer.state" Thawed]) := by
      apply Set_Frozen_of_error
      rw [hloop, freezeLoop_read_fails st path n k _ e (hok _ hcw) (hfail _ hcr)]
      rfl
    refine ⟨?_, ?_, ?_⟩
    · rw [hrun]; simp [attempts, attempt]
    · rw [hrun, numReads_append, numReads_attempts]
      simp [numReads, List.count_cons]
    · rw [hrun, numWrites_append, numWrites_Frozen_attempts]
      simp [numWrites, List.count_cons, Thawed, Frozen]

/-- C8, at two stores that answer `FREEZING` to the first attempt: one fails the
second write of `FROZEN`, the other fails the second read. -/
theorem Set_Frozen_io_failure_witness :
    Set (scripted "/g"
      (fun j => if j = 1 then some (Error.io "permission denied" false false) else none)
      (fun _ => Except.ok "FREEZING\n")) "/g" ⟨Frozen⟩ [] =
      (some (Error.io "permission denied" false false),
       [Event.write "/g" "freezer.state" "FROZEN", Event.read "/g" "freezer.state",
        Event.write "/g" "freezer.state" "FROZEN",
        Event.write "/g" "freezer.state" "THAWED"]) ∧
    Set (scripted "/g" (fun _ => none)
      (fun j => if j = 1 then Except.error (Error.io "no such device" false true)
        else Except.ok "FREEZING\n")) "/g" ⟨Frozen⟩ [] =
      (some (Error.io "no such device" false true),
       [Event.write "/g" "freezer.state" "FROZEN", Event.read "/g" "freezer.state",
        Event.write "/g" "freezer.state" "FROZEN", Event.read "/g" "freezer.state",
        Event.write "/g" "freezer.state" "THAWED"]) :=
  ⟨((Set_Frozen_io_failure (scripted "/g"
      (fun j => if j = 1 then some (Error.io "permission denied" false false) else none)
      (fun _ => Except.ok "FREEZING\n")) "/g" 1 (Error.io "permission denied" false false)
      (by decide)
      (fun j hj => by
        have h := scripted_FrozenWriteAt "/g"
          (fun j => if j = 1 then some (Error.io "permission denied" false false) else none)
          (fun _ => Except.ok "FREEZING\n") j
        simpa [Nat.ne_of_lt hj] using h)
      (fun j _ => scripted_ReadsAt "/g" _ _ j "FREEZING\n" "FREEZING" rfl (by decide))).1
      (scripted_FrozenWriteAt "/g" _ _ 1)).1,
   ((Set_Frozen_io_failure (scripted "/g" (fun _ => none)
      (fun j => if j = 1 then Except.error (Error.io "no such device" false true)
        else Except.ok "FREEZING\n")) "/g" 1 (Error.io "no such device" false true)
      (by decide)
      (fun j _ => scripted_FrozenWriteAt "/g" _ _ j)
      (fun j hj => scripted_ReadsAt "/g" _ _ j "FREEZING\n" "FREEZING"
        (by simp [Nat.ne_of_lt hj]) (by decide))).2
      (scripted_FrozenWriteAt "/g" _ _ 1)
      (scripted_ReadFailsAt "/g" _ _ 1 _ (by simp))).1⟩

/-! ## `GetState` -/

theorem numReads_polls (path : String) (n : Nat) : numReads path (polls path n) = n := by
  induction n with
  | zero => simp [polls, numReads]
  | succ n ih =>
    rw [polls, numReads_append, ih]
    simp [numReads, List.count_cons]

theorem numSleeps_polls (path : String) (n : Nat) : numSleeps 1 (polls path n) = n := by
  induction n with
  | zero => simp [polls, numSleeps]
  | succ n ih =>
    rw [polls, numSleeps_append, ih]
    simp [numSleeps, List.count_cons]

/-- A round of `GetState` that reads `FREEZING` pauses for 1ms and reads again. -/
theorem GetState_freezing (st : Store) (path : String) (fuel : Nat) (h : List Event)
    (v : String) (hr : st.ReadFile h path "freezer.state" = Except.ok v)
    (hv : TrimSpace v = "FREEZING") :
    GetState st path (fuel + 1) h =
      GetState st path fuel (h ++ [Event.read path "freezer.state", Event.sleep 1]) := by
  rw [GetState]
  simp [readFile, hr, hv, sleep]

/-- A round of `GetState` whose read is answered by anything but `FREEZING` returns,
and what it returns is settled by that answer alone. -/
theorem GetState_terminal (st st2 : Store) (path : String) (fuel : Nat) (h h2 : List Event)
    (hsame : st2.ReadFile h2 path "freezer.state" = st.ReadFile h path "freezer.state")
    (hterm : ∀ v, st.ReadFile h path "freezer.state" = Except.ok v → TrimSpace v ≠ "FREEZING") :
    ∃ out, GetState st2 path 1 h2 = some (out, h2 ++ [Event.read path "freezer.state"]) ∧
      GetState st path (fuel + 1) h = some (out, h ++ [Event.read path "freezer.state"]) := by
  rw [GetState, GetState]
  simp only [readFile, hsame]
  cases hr : st.ReadFile h path "freezer.state" with
  | error e => exact ⟨_, rfl, rfl⟩
  | ok v =>
    have hv := hterm v hr
    by_cases h1 : TrimSpace v = "THAWED"
    · exact ⟨(Thawed, none), by simp [h1], by simp [h1]⟩
    · by_cases h2 : TrimSpace v = "FROZEN"
      · exact ⟨(Frozen, none), by simp [h2], by simp [h2]⟩
      · exact ⟨(Undefined, some (Error.errorfQ "unknown freezer.state " v)),
          by simp [h1, h2, hv], by simp [h1, h2, hv]⟩

/-- While the reads answer `FREEZING`, `GetState` goes round: after `n` such rounds
its history is `polls path n`. -/
theorem GetState_polls (st : Store) (path : String) (n : Nat)
    (hfreezing : ∀ j, j < n → ReadsAt st path j "FREEZING") (fuel : Nat) :
    GetState st path (n + fuel) [] = GetState st path fuel (polls path n) := by
  induction n generalizing fuel with
  | zero => simp [polls]
  | succ n ih =>
    have e : n + 1 + fuel = n + (fuel + 1) := by omega
    rw [e, ih (fun j hj => hfreezing j (by omega)) (fuel + 1)]
    obtain ⟨v, hv, ht⟩ := hfreezing n (by omega) (polls path n) (numReads_polls path n)
    rw [GetState_freezing st path fuel _ v hv ht]
    rfl

/-- C9: when the first read of the state entry succeeds with a value that trims to
`THAWED` (to `FROZEN`), `GetState(path)` returns `(Thawed, nil)` (`(Frozen, nil)`)
after exactly that one read and no pause, whatever fuel it is given. -/
theorem GetState_stable (st : Store) (path : String) (fuel : Nat) (h : List Event) (v : String)
    (hr : st.ReadFile h path "freezer.state" = Except.ok v) :
    (TrimSpace v = "THAWED" →
      GetState st path (fuel + 1) h =
        some (("THAWED", none), h ++ [Event.read path "freezer.state"])) ∧
    (TrimSpace v = "FROZEN" →
      GetState st path (fuel + 1) h =
        some (("FROZEN", none), h ++ [Event.read path "freezer.state"])) := by
  constructor
  · intro hv
    rw [GetState]
    simp [readFile, hr, hv, Thawed]
  · intro hv
    rw [GetState]
    simp [readFile, hr, hv, Frozen]

/-- C9, at stores that answer `THAWED` and `FROZEN`. -/
theorem GetState_stable_witness :
    GetState (scripted "/g" (fun _ => none) (fun _ => Except.ok "THAWED\n")) "/g" 1 [] =
      some (("THAWED", none), [Event.read "/g" "freezer.state"]) ∧
    GetState (scripted "/g" (fun _ => none) (fun _ => Except.ok "FROZEN\n")) "/g" 1 [] =
      some (("FROZEN", none), [Event.read "/g" "freezer.state"]) :=
  ⟨(GetState_stable (scripted "/g" (fun _ => none) (fun _ => Except.ok "THAWED\n"))
      "/g" 0 [] "THAWED\n" rfl).1 (by decide),
   (GetState_stable (scripted "/g" (fun _ => none) (fun _ => Except.ok "FROZEN\n"))
      "/g" 0 [] "FROZEN\n" rfl).2 (by decide)⟩

/-- C10: when the reads of the state entry answer `FREEZING` (after trimming) `n`
times and the next read is answered by `r`, which is anything else, then
`GetState(path)` returns as soon as its fuel exceeds `n`: after exactly `n + 1`
reads and exactly `n` pauses of 1ms, and with the result that a call whose first
read is answered by `r` returns. -/
theorem GetState_after_freezing (st : Store) (path : String) (n fuel : Nat)
    (r : Except Error String) (hfuel : n < fuel)
    (hfreezing : ∀ j, j < n → ReadsAt st path j "FREEZING")
    (hlast : ∀ h, numReads path h = n → st.ReadFile h path "freezer.state" = r)
    (hterm : ∀ v, r = Except.ok v → TrimSpace v ≠ "FREEZING") :
    ∃ out,
      GetState (scripted path (fun _ => none) (fun _ => r)) path 1 [] =
        some (out, [Event.read path "freezer.state"]) ∧
      GetState st path fuel [] =
        some (out, polls path n ++ [Event.read path "freezer.state"]) ∧
      numReads path (polls path n ++ [Event.read path "freezer.state"]) = n + 1 ∧
      numSleeps 1 (polls path n ++ [Event.read path "freezer.state"]) = n ∧
      ∀ ms, ms ≠ 1 → numSleeps ms (polls path n ++ [Event.read path "freezer.state"]) = 0 := by
  obtain ⟨f, hf⟩ : ∃ f, fuel = n + (f + 1) := ⟨fuel - n - 1, by omega⟩
  have hrn := hlast (polls path n) (numReads_polls path n)
  obtain ⟨out, h1, h2⟩ := GetState_terminal st (scripted path (fun _ => none) (fun _ => r))
    path f (polls path n) [] (by rw [hrn]; rfl) (fun v hv => hterm v (hrn ▸ hv))
  refine ⟨out, h1, ?_, ?_, ?_, ?_⟩
  · rw [hf, GetState_polls st path n hfreezing (f + 1), h2]
  · rw [numReads_append, numReads_polls]
    simp [numReads, List.count_cons]
  · rw [numSleeps_append, numSleeps_polls]
    simp [numSleeps, List.count_cons]
  · intro ms hms
    rw [numSleeps_append]
    have hp : ∀ m, numSleeps ms (polls path m) = 0 := by
      intro m
      induction m with
      | zero => simp [polls, numSleeps]
      | succ m ih =>
        rw [polls, numSleeps_append, ih]
        simp [numSleeps, List.count_cons, Ne.symm hms]
    rw [hp]
    simp [numSleeps, List.count_cons]

/-- C10, at a store that answers `FREEZING` twice and then `FROZEN`: `GetState`
pauses exactly twice and returns `(Frozen, nil)`. -/
theorem GetState_after_freezing_witness :
    ∃ out,
      GetState (scripted "/g" (fun _ => none) (fun _ => Except.ok "FROZEN\n")) "/g" 1 [] =
        some (out, [Event.read "/g" "freezer.state"]) ∧
      GetState (scripted "/g" (fun _ => none)
        (fun j => if j < 2 then Except.ok "FREEZING\n" else Except.ok "FROZEN\n")) "/g" 3 [] =
        some (out, [Event.read "/g" "freezer.state", Event.sleep 1,
          Event.read "/g" "freezer.state", Event.sleep 1, Event.read "/g" "freezer.state"]) ∧
      out = ("FROZEN", none) :=
  have h := GetState_after_freezing (scripted "/g" (fun _ => none)
      (fun j => if j < 2 then Except.ok "FREEZING\n" else Except.ok "FROZEN\n")) "/g" 2 3
      (Except.ok "FROZEN\n") (by decide)
      (fun j hj => scripted_ReadsAt "/g" _ _ j "FREEZING\n" "FREEZING" (by simp [hj]) (by decide))
      (fun h hh => by simp [scripted, hh])
      (fun v hv => by cases hv; decide)
  match h with
  | ⟨out, h1, h2, _⟩ => ⟨out, h1, h2, by
      have h3 : GetState (scripted "/g" (fun _ => none) (fun _ => Except.ok "FROZEN\n"))
          "/g" 1 [] = some (("FROZEN", none), [Event.read "/g" "freezer.state"]) := by decide
      rw [h3] at h1
      simpa using h1.symm⟩

/-! ## `GetState`: failed reads and unknown values -/

/-- C11: when the read of the state entry fails with an error that is a not-exist
error or wraps `ENODEV`, `GetState(path)` returns `(Undefined, nil)`, after that one
read and no pause. -/
theorem GetState_absent (st : Store) (path : String) (fuel : Nat) (h : List Event) (e : Error)
    (hr : st.ReadFile h path "freezer.state" = Except.error e)
    (he : e.IsNotExist = true ∨ e.IsENODEV = true) :
    GetState st path (fuel + 1) h = some (("", none), h ++ [Event.read path "freezer.state"]) := by
  rw [GetState]
  rcases he with he | he <;> simp [readFile, hr, he, Undefined]

/-- C11, at stores whose read fails with a not-exist error and with `ENODEV`. -/
theorem GetState_absent_witness :
    GetState (scripted "/g" (fun _ => none)
      (fun _ => Except.error (Error.io "no such file or directory" true false))) "/g" 1 [] =
      some (("", none), [Event.read "/g" "freezer.state"]) ∧
    GetState (scripted "/g" (fun _ => none)
      (fun _ => Except.error (Error.io "no such device" false true))) "/g" 1 [] =
      some (("", none), [Event.read "/g" "freezer.state"]) :=
  ⟨GetState_absent (scripted "/g" (fun _ => none)
      (fun _ => Except.error (Error.io "no such file or directory" true false)))
      "/g" 0 [] (Error.io "no such file or directory" true false) rfl (Or.inl rfl),
   GetState_absent (scripted "/g" (fun _ => none)
      (fun _ => Except.error (Error.io "no such device" false true)))
      "/g" 0 [] (Error.io "no such device" false true) rfl (Or.inr rfl)⟩

/-- C12: when the read of the state entry fails with an error `e` that is neither a
not-exist error nor `ENODEV`, `GetState(path)` returns `Undefined` together with
exactly `e`, after that one read: no pause, no second read. -/
theorem GetState_read_error (st : Store) (path : String) (fuel : Nat) (h : List Event)
    (e : Error) (hr : st.ReadFile h path "freezer.state" = Except.error e)
    (h1 : e.IsNotExist = false) (h2 : e.IsENODEV = false) :
    GetState st path (fuel + 1) h =
      some (("", some e), h ++ [Event.read path "freezer.state"]) := by
  rw [GetState]
  simp [readFile, hr, h1, h2, Undefined]

/-- C12, at a store whose read fails with a permission error. -/
theorem GetState_read_error_witness :
    GetState (scripted "/g" (fun _ => none)
      (fun _ => Except.error (Error.io "permission denied" false false))) "/g" 1 [] =
      some (("", some (Error.io "permission denied" false false)),
        [Event.read "/g" "freezer.state"]) :=
  GetState_read_error (scripted "/g" (fun _ => none)
      (fun _ => Except.error (Error.io "permission denied" false false)))
    "/g" 0 [] (Error.io "permission denied" false false) rfl rfl rfl

/-- C14: when the read of the state entry succeeds with a value `v` that trims to
none of `THAWED`, `FROZEN` and `FREEZING`, `GetState(path)` returns `Undefined`
together with the error `unknown freezer.state %q` formatted with `v`, after that
one read: no pause, no second read. -/
theorem GetState_unknown_state (st : Store) (path : String) (fuel : Nat) (h : List Event)
    (v : String) (hr : st.ReadFile h path "freezer.state" = Except.ok v)
    (h1 : TrimSpace v ≠ "THAWED") (h2 : TrimSpace v ≠ "FROZEN")
    (h3 : TrimSpace v ≠ "FREEZING") :
    GetState st path (fuel + 1) h =
      some (("", some (Error.errorfQ "unknown freezer.state " v)),
        h ++ [Event.read path "freezer.state"]) := by
  rw [GetState]
  simp [readFile, hr, h1, h2, h3, Undefined]

/-- C14, at stores that answer the empty string and an unknown token. -/
theorem GetState_unknown_state_witness :
    GetState (scripted "/g" (fun _ => none) (fun _ => Except.ok "")) "/g" 1 [] =
      some (("", some (Error.errorfQ "unknown freezer.state " "")),
        [Event.read "/g" "freezer.state"]) ∧
    GetState (scripted "/g" (fun _ => none) (fun _ => Except.ok "THAWING\n")) "/g" 1 [] =
      some (("", some (Error.errorfQ "unknown freezer.state " "THAWING\n")),
        [Event.read "/g" "freezer.state"]) :=
  ⟨GetState_unknown_state (scripted "/g" (fun _ => none) (fun _ => Except.ok ""))
      "/g" 0 [] "" rfl (by decide) (by decide) (by decide),
   GetState_unknown_state (scripted "/g" (fun _ => none) (fun _ => Except.ok "THAWING\n"))
      "/g" 0 [] "THAWING\n" rfl (by decide) (by decide) (by decide)⟩

/-- C13: whenever `GetState(path)` returns, the state returned is not `FREEZING`: it
is one of `Undefined`, `Thawed` and `Frozen`; its last step is a read of the state
entry, and when it returns `Thawed` or `Frozen` with a nil error, the value that
read was answered with trims to the matching token. -/
theorem GetState_never_freezing (st : Store) (path : String) (fuel : Nat) (h : List Event)
    (s : FreezerState) (err : Option Error) (tr : List Event)
    (hres : GetState st path fuel h = some ((s, err), tr)) :
    s ≠ "FREEZING" ∧ (s = "" ∨ s = "THAWED" ∨ s = "FROZEN") ∧
    ∃ pre, tr = pre ++ [Event.read path "freezer.state"] ∧
      (err = none → s = "THAWED" →
        ∃ v, st.ReadFile pre path "freezer.state" = Except.ok v ∧ TrimSpace v = "THAWED") ∧
      (err = none → s = "FROZEN" →
        ∃ v, st.ReadFile pre path "freezer.state" = Except.ok v ∧ TrimSpace v = "FROZEN") := by
  induction fuel generalizing h with
  | zero => simp [GetState] at hres
  | succ fuel ih =>
    cases hr : st.ReadFile h path "freezer.state" with
    | error e =>
      rw [GetState] at hres
      simp only [readFile, hr, Option.some.injEq, Prod.mk.injEq] at hres
      obtain ⟨⟨rfl, _⟩, rfl⟩ := hres
      exact ⟨by decide, Or.inl rfl, h, rfl, fun _ hs => absurd hs (by decide),
        fun _ hs => absurd hs (by decide)⟩
    | ok v =>
      by_cases h1 : TrimSpace v = "THAWED"
      · rw [GetState] at hres
        simp only [readFile, hr, h1, if_true, Thawed, Option.some.injEq, Prod.mk.injEq] at hres
        obtain ⟨⟨rfl, _⟩, rfl⟩ := hres
        exact ⟨by decide, Or.inr (Or.inl rfl), h, rfl, fun _ _ => ⟨v, hr, h1⟩,
          fun _ hs => absurd hs (by decide)⟩
      · by_cases h2 : TrimSpace v = "FROZEN"
        · rw [GetState] at hres
          simp only [readFile, hr, h1, h2, if_true, if_false, Frozen, Option.some.injEq,
            Prod.mk.injEq] at hres
          obtain ⟨⟨rfl, _⟩, rfl⟩ := hres
          exact ⟨by decide, Or.inr (Or.inr rfl), h, rfl, fun _ hs => absurd hs (by decide),
            fun _ _ => ⟨v, hr, h2⟩⟩
        · by_cases h3 : TrimSpace v = "FREEZING"
          · rw [GetState_freezing st path fuel h v hr h3] at hres
            exact ih _ hres
          · rw [GetState] at hres
            simp only [readFile, hr, h1, h2, h3, if_false, Undefined, Option.some.injEq,
              Prod.mk.injEq] at hres
            obtain ⟨⟨rfl, _⟩, rfl⟩ := hres
            exact ⟨by decide, Or.inl rfl, h, rfl, fun _ hs => absurd hs (by decide),
              fun _ hs => absurd hs (by decide)⟩

/-- C13, at a store that answers `FREEZING` twice and then `FROZEN`: the call
returns `Frozen`, and the read it ends on was answered with `FROZEN`. -/
theorem GetState_never_freezing_witness :
    GetState (scripted "/g" (fun _ => none)
      (fun j => if j < 2 then Except.ok "FREEZING\n" else Except.ok "FROZEN\n")) "/g" 3 [] =
      some (("FROZEN", none), polls "/g" 2 ++ [Event.read "/g" "freezer.state"]) ∧
    ("FROZEN" : String) ≠ "FREEZING" :=
  ⟨by decide,
   (GetState_never_freezing (scripted "/g" (fun _ => none)
      (fun j => if j < 2 then Except.ok "FREEZING\n" else Except.ok "FROZEN\n")) "/g" 3 []
      "FROZEN" none (polls "/g" 2 ++ [Event.read "/g" "freezer.state"]) (by decide)).1⟩

/-! ## `Set(path, Frozen)`: termination, bounds and the ways to end -/

/-- How the freeze loop can return: with nil on a read of `FROZEN`, with the error
of a failed write of `FROZEN`, with the error of a failed read, with the
unexpected-state error on a read of an unknown value, or with the exhaustion error
after a last read of `FREEZING`. -/
theorem freezeLoop_exit (st : Store) (path : String) (n i : Nat) (h : List Event)
    (h0 : n = 0 → ∃ pre v, h = pre ++ [Event.read path "freezer.state"] ∧
      st.ReadFile pre path "freezer.state" = Except.ok v ∧ TrimSpace v = "FREEZING") :
    (∃ pre v, freezeLoop st path n i h = (none, pre ++ [Event.read path "freezer.state"]) ∧
      st.ReadFile pre path "freezer.state" = Except.ok v ∧ TrimSpace v = "FROZEN") ∨
    (∃ pre e, freezeLoop st path n i h =
        (some e, pre ++ [Event.write path "freezer.state" Frozen]) ∧
      st.WriteFile pre path "freezer.state" Frozen = some e) ∨
    (∃ pre e, freezeLoop st path n i h = (some e, pre ++ [Event.read path "freezer.state"]) ∧
      st.ReadFile pre path "freezer.state" = Except.error e) ∨
    (∃ pre v, freezeLoop st path n i h =
        (some (Error.errorString ("unexpected state " ++ TrimSpace v ++ " while freezing")),
         pre ++ [Event.read path "freezer.state"]) ∧
      st.ReadFile pre path "freezer.state" = Except.ok v ∧
      TrimSpace v ≠ "FREEZING" ∧ TrimSpace v ≠ "FROZEN") ∨
    (∃ pre v, freezeLoop st path n i h =
        (some (Error.errorString "unable to freeze"),
         pre ++ [Event.read path "freezer.state"]) ∧
      st.ReadFile pre path "freezer.state" = Except.ok v ∧ TrimSpace v = "FREEZING" ∧
      numReads path (pre ++ [Event.read path "freezer.state"]) = numReads path h + n) := by
  induction n generalizing i h with
  | zero =>
    obtain ⟨pre, v, hp, hv, ht⟩ := h0 rfl
    refine Or.inr (Or.inr (Or.inr (Or.inr ⟨pre, v, ?_, hv, ht, ?_⟩)))
    · rw [freezeLoop, hp]
    · rw [hp]; rfl
  | succ n ih =>
    have hsplit : h ++ attempt path i =
        (h ++ interjection path i ++ [Event.write path "freezer.state" Frozen]) ++
          [Event.read path "freezer.state"] := by simp [attempt]
    cases hw : st.WriteFile (h ++ interjection path i) path "freezer.state" Frozen with
    | some e =>
      rw [freezeLoop_write_fails st path n i h e hw]
      exact Or.inr (Or.inl ⟨_, e, rfl, hw⟩)
    | none =>
      cases hr : st.ReadFile (h ++ interjection path i ++
          [Event.write path "freezer.state" Frozen]) path "freezer.state" with
      | error e =>
        rw [freezeLoop_read_fails st path n i h e hw hr, hsplit]
        exact Or.inr (Or.inr (Or.inl ⟨_, e, rfl, hr⟩))
      | ok v =>
        by_cases h1 : TrimSpace v = "FREEZING"
        · rw [freezeLoop_freezing st path n i h v hw hr h1]
          have hcount : numReads path (h ++ attempt path i) + n = numReads path h + (n + 1) := by
            rw [numReads_append, numReads_attempt]; omega
          rw [← hcount]
          exact ih (i + 1) (h ++ attempt path i) (fun _ => ⟨_, v, hsplit, hr, h1⟩)
        · by_cases h2 : TrimSpace v = "FROZEN"
          · rw [freezeLoop_frozen st path n i h v hw hr h2, hsplit]
            exact Or.inl ⟨_, v, rfl, hr, h2⟩
          · rw [freezeLoop_unexpected st path n i h v hw hr h1 h2, TrimSpace_idem, hsplit]
            exact Or.inr (Or.inr (Or.inr (Or.inl ⟨_, v, rfl, hr, h1, h2⟩)))

/-- The budget of the freeze loop: with `n` iterations left at index `i` it adds at
most `n` writes of `FROZEN`, at most `n` reads, and at most one pause of 10ms for
each index `j` in `i, ..., i + n - 1` with `j % 50 = 49`. -/
theorem freezeLoop_bounds (st : Store) (path : String) (n i : Nat) (h : List Event) :
    numWrites path Frozen (freezeLoop st path n i h).2 ≤ numWrites path Frozen h + n ∧
    numReads path (freezeLoop st path n i h).2 ≤ numReads path h + n ∧
    numSleeps 10 (freezeLoop st path n i h).2 + i / 50 ≤ numSleeps 10 h + (i + n) / 50 := by
  induction n generalizing i h with
  | zero => simp [freezeLoop]
  | succ n ih =>
    have hA : numWrites path Frozen (h ++ attempt path i) = numWrites path Frozen h + 1 := by
      rw [numWrites_append, numWrites_Frozen_attempt]
    have hB : numReads path (h ++ attempt path i) = numReads path h + 1 := by
      rw [numReads_append, numReads_attempt]
    have hC : numSleeps 10 (h ++ attempt path i) =
        numSleeps 10 h + (if i % 50 = 49 then 1 else 0) := by
      rw [numSleeps_append, numSleeps_attempt]
    cases hw : st.WriteFile (h ++ interjection path i) path "freezer.state" Frozen with
    | some e =>
      rw [freezeLoop_write_fails st path n i h e hw]
      simp only [numWrites_append, numReads_append, numSleeps_append,
        numWrites_Frozen_interjection, numReads_interjection, numSleeps_interjection]
      refine ⟨?_, ?_, ?_⟩
      · simp [numWrites, List.count_cons]
      · simp [numReads, List.count_cons]
      · have : numSleeps 10 [Event.write path "freezer.state" Frozen] = 0 := by
          simp [numSleeps, List.count_cons]
        rw [this]
        split <;> omega
    | none =>
      cases hr : st.ReadFile (h ++ interjection path i ++
          [Event.write path "freezer.state" Frozen]) path "freezer.state" with
      | error e =>
        rw [freezeLoop_read_fails st path n i h e hw hr]
        simp only [hA, hB, hC]
        refine ⟨by omega, by omega, ?_⟩
        split <;> omega
      | ok v =>
        by_cases h1 : TrimSpace v = "FREEZING"
        · rw [freezeLoop_freezing st path n i h v hw hr h1]
          obtain ⟨a, b, c⟩ := ih (i + 1) (h ++ attempt path i)
          rw [hA] at a
          rw [hB] at b
          rw [hC] at c
          refine ⟨by omega, by omega, ?_⟩
          have e1 : i + 1 + n = i + (n + 1) := by omega
          rw [e1] at c
          split at c <;> omega
        · by_cases h2 : TrimSpace v = "FROZEN"
          · rw [freezeLoop_frozen st path n i h v hw hr h2]
            simp only [hA, hB, hC]
            refine ⟨by omega, by omega, ?_⟩
            split <;> omega
          · rw [freezeLoop_unexpected st path n i h v hw hr h1 h2]
            simp only [hA, hB, hC]
            refine ⟨by omega, by omega, ?_⟩
            split <;> omega

/-- A call cannot end in two ways at once: the access that settled the result, and
the answer of the store to it, tell the ways apart. -/
theorem EndsIn_unique (st : Store) (path : String) (res : Option Error × List Event)
    (x y : Exit) (hx : EndsIn st path res x) (hy : EndsIn st path res y) : x = y := by
  have key : ∀ a b, EndsIn st path res a → EndsIn st path res b →
      a.toCtorIdx < b.toCtorIdx → False := by
    intro a b ha hb hlt
    cases a <;> cases b <;> simp [Exit.toCtorIdx] at hlt <;> simp only [EndsIn] at ha hb
    · obtain ⟨p, v, h1, _⟩ := ha
      obtain ⟨q, e, ⟨h2, _⟩ | ⟨h2, _⟩⟩ := hb <;> rw [h1] at h2 <;> simp at h2
    · obtain ⟨p, v, h1, _⟩ := ha
      obtain ⟨q, w, h2, _⟩ := hb
      rw [h1] at h2
      simp at h2
    · obtain ⟨p, v, h1, _⟩ := ha
      obtain ⟨q, w, h2, _⟩ := hb
      rw [h1] at h2
      simp at h2
    · obtain ⟨q, w, h2, hok, _, _⟩ := hb
      obtain ⟨p, e, ⟨h1, _⟩ | ⟨h1, hrd⟩⟩ := ha
      · rw [h1] at h2
        have h3 := (List.append_inj' (Prod.mk.inj h2).2 rfl).2
        simp at h3
      · rw [h1] at h2
        have h3 := (List.append_inj' (Prod.mk.inj h2).2 rfl).1
        rw [h3, hok] at hrd
        cases hrd
    · obtain ⟨q, w, h2, hok, _, _⟩ := hb
      obtain ⟨p, e, ⟨h1, _⟩ | ⟨h1, hrd⟩⟩ := ha
      · rw [h1] at h2
        have h3 := (List.append_inj' (Prod.mk.inj h2).2 rfl).2
        simp at h3
      · rw [h1] at h2
        have h3 := (List.append_inj' (Prod.mk.inj h2).2 rfl).1
        rw [h3, hok] at hrd
        cases hrd
    · obtain ⟨p, v, h1, hv, hne, _⟩ := ha
      obtain ⟨q, w, h2, hw, heq, _⟩ := hb
      rw [h1] at h2
      have h3 := (List.append_inj' (Prod.mk.inj h2).2 rfl).1
      rw [h3, hw] at hv
      cases hv
      exact hne heq
  rcases Nat.lt_trichotomy x.toCtorIdx y.toCtorIdx with h | h | h
  · exact absurd h (fun h => key x y hx hy h)
  · cases x <;> cases y <;> simp [Exit.toCtorIdx] at h <;> rfl
  · exact absurd h (fun h => key y x hy hx h)

/-- C15: for every store, `Set(path, Frozen)` returns (the model is a total
function), having issued at most 1000 writes of `FROZEN`, at most 1000 reads and at
most 20 pauses of 10ms; and it ends in exactly one of the four ways `success`,
`storeError`, `unexpectedState`, `retryExhaustion`. -/
theorem Set_Frozen_terminates_bounded (st : Store) (path : String) :
    numWrites path Frozen (Set st path ⟨Frozen⟩ []).2 ≤ 1000 ∧
    numReads path (Set st path ⟨Frozen⟩ []).2 ≤ 1000 ∧
    numSleeps 10 (Set st path ⟨Frozen⟩ []).2 ≤ 20 ∧
    ∃! x, EndsIn st path (Set st path ⟨Frozen⟩ []) x := by
  have hthaw : ∀ l : List Event,
      numWrites path Frozen (l ++ [Event.write path "freezer.state" Thawed]) =
        numWrites path Frozen l ∧
      numReads path (l ++ [Event.write path "freezer.state" Thawed]) = numReads path l ∧
      numSleeps 10 (l ++ [Event.write path "freezer.state" Thawed]) = numSleeps 10 l := by
    intro l
    refine ⟨?_, ?_, ?_⟩
    · rw [numWrites_append]; simp [numWrites, List.count_cons, Thawed, Frozen]
    · rw [numReads_append]; simp [numReads, List.count_cons]
    · rw [numSleeps_append]; simp [numSleeps, List.count_cons]
  obtain ⟨b1, b2, b3⟩ := freezeLoop_bounds st path 1000 0 []
  have hexit := freezeLoop_exit st path 1000 0 [] (fun h => absurd h (by decide))
  have z1 : numWrites path Frozen [] = 0 := rfl
  have z2 : numReads path [] = 0 := rfl
  have z3 : numSleeps 10 [] = 0 := rfl
  rw [z1] at b1
  rw [z2] at b2
  rw [z3] at b3
  have hbounds : numWrites path Frozen (Set st path ⟨Frozen⟩ []).2 ≤ 1000 ∧
      numReads path (Set st path ⟨Frozen⟩ []).2 ≤ 1000 ∧
      numSleeps 10 (Set st path ⟨Frozen⟩ []).2 ≤ 20 := by
    cases hb : freezeLoop st path 1000 0 [] with
    | mk err h1 =>
      rw [hb] at b1 b2 b3
      dsimp only at b1 b2 b3
      cases err with
      | some e =>
        rw [Set_Frozen_of_error st path [] h1 e hb]
        obtain ⟨t1, t2, t3⟩ := hthaw h1
        simp only [t1, t2, t3]
        exact ⟨by omega, by omega, by omega⟩
      | none =>
        rw [Set_Frozen_of_nil st path [] h1 hb]
        have b4 : numSleeps 10 h1 ≤ 20 := by omega
        exact ⟨b1, b2, b4⟩
  have hex : ∃ x, EndsIn st path (Set st path ⟨Frozen⟩ []) x := by
    rcases hexit with ⟨pre, v, hl, hv, ht⟩ | ⟨pre, e, hl, hw⟩ | ⟨pre, e, hl, hr⟩ |
      ⟨pre, v, hl, hv, h1, h2⟩ | ⟨pre, v, hl, hv, ht, hc⟩
    · exact ⟨Exit.success, pre, v, Set_Frozen_of_nil st path [] _ hl, hv, ht⟩
    · refine ⟨Exit.storeError, pre, e, Or.inl ⟨?_, hw⟩⟩
      rw [Set_Frozen_of_error st path [] _ e hl]
      simp
    · refine ⟨Exit.storeError, pre, e, Or.inr ⟨?_, hr⟩⟩
      rw [Set_Frozen_of_error st path [] _ e hl]
      simp
    · refine ⟨Exit.unexpectedState, pre, v, ?_, hv, h1, h2⟩
      rw [Set_Frozen_of_error st path [] _ _ hl]
      simp
    · refine ⟨Exit.retryExhaustion, pre, v, ?_, hv, ht, ?_⟩
      · rw [Set_Frozen_of_error st path [] _ _ hl]
        simp
      · rw [numReads_append, z2] at hc
        have : numReads path [Event.read path "freezer.state"] = 1 := by
          simp [numReads, List.count_cons]
        omega
  obtain ⟨x, hx⟩ := hex
  exact ⟨hbounds.1, hbounds.2.1, hbounds.2.2,
    x, hx, fun y hy => EndsIn_unique st path _ y x hy hx⟩

/-! ## `Set(path, Frozen)`: what the result does not depend on -/

/-- C17: two stores that answer every read and every write of `FROZEN` alike, and
may differ in what they answer to the writes of `THAWED`, make `Set(path, Frozen)`
return the same error after the same sequence of accesses and pauses. -/
theorem Set_Frozen_ignores_thaw_results (st st2 : Store) (path : String) (h : List Event)
    (hr : ∀ h, st2.ReadFile h path "freezer.state" = st.ReadFile h path "freezer.state")
    (hw : ∀ h, st2.WriteFile h path "freezer.state" Frozen =
      st.WriteFile h path "freezer.state" Frozen) :
    Set st2 path ⟨Frozen⟩ h = Set st path ⟨Frozen⟩ h := by
  simp only [Set, if_true, freezeLoop_congr st st2 path hr hw, writeFile]

/-- C17, at a store that reads `FREEZING` 49 times and then `FROZEN`, and the same
store with every thaw failing: the in-loop thaw of attempt 49 is answered
differently, the call ends alike. -/
theorem Set_Frozen_ignores_thaw_results_witness :
    Set (thawFailing (scripted "/g" (fun _ => none)
        (fun j => if j < 49 then Except.ok "FREEZING\n" else Except.ok "FROZEN\n"))
        (Error.io "device or resource busy" false false)) "/g" ⟨Frozen⟩ [] =
      Set (scripted "/g" (fun _ => none)
        (fun j => if j < 49 then Except.ok "FREEZING\n" else Except.ok "FROZEN\n"))
        "/g" ⟨Frozen⟩ [] ∧
    (thawFailing (scripted "/g" (fun _ => none)
        (fun j => if j < 49 then Except.ok "FREEZING\n" else Except.ok "FROZEN\n"))
        (Error.io "device or resource busy" false false)).WriteFile
        (attempts "/g" 49) "/g" "freezer.state" "THAWED" ≠
      (scripted "/g" (fun _ => none)
        (fun j => if j < 49 then Except.ok "FREEZING\n" else Except.ok "FROZEN\n")).WriteFile
        (attempts "/g" 49) "/g" "freezer.state" "THAWED" :=
  ⟨Set_Frozen_ignores_thaw_results _ _ "/g" [] (fun _ => rfl)
      (fun _ => by simp [thawFailing, Thawed, Frozen]),
   by simp [thawFailing, scripted, Thawed, Frozen]⟩

/-- The loop classifies what it reads after trimming: two stores that answer the
writes of `FROZEN` alike and the reads alike up to surrounding white space run the
loop alike. -/
theorem freezeLoop_congr_trim (st st2 : Store) (path : String)
    (hr : ∀ h, SameUpToSpace (st2.ReadFile h path "freezer.state")
      (st.ReadFile h path "freezer.state"))
    (hw : ∀ h, st2.WriteFile h path "freezer.state" Frozen =
      st.WriteFile h path "freezer.state" Frozen)
    (n i : Nat) (h : List Event) :
    freezeLoop st2 path n i h = freezeLoop st path n i h := by
  induction n generalizing i h with
  | zero => rfl
  | succ n ih =>
    have hw2 := hw (h ++ interjection path i)
    have hs := hr (h ++ interjection path i ++ [Event.write path "freezer.state" Frozen])
    cases hwr : st.WriteFile (h ++ interjection path i) path "freezer.state" Frozen with
    | some e =>
      rw [freezeLoop_write_fails st path n i h e hwr,
        freezeLoop_write_fails st2 path n i h e (hw2.trans hwr)]
    | none =>
      have hwr2 := hw2.trans hwr
      cases h1 : st.ReadFile (h ++ interjection path i ++
          [Event.write path "freezer.state" Frozen]) path "freezer.state" with
      | error e1 =>
        cases h2 : st2.ReadFile (h ++ interjection path i ++
            [Event.write path "freezer.state" Frozen]) path "freezer.state" with
        | error e2 =>
          rw [h1, h2] at hs
          simp only [SameUpToSpace] at hs
          rw [freezeLoop_read_fails st path n i h e1 hwr h1,
            freezeLoop_read_fails st2 path n i h e2 hwr2 h2, hs]
        | ok v2 =>
          rw [h1, h2] at hs
          simp only [SameUpToSpace] at hs
      | ok v1 =>
        cases h2 : st2.ReadFile (h ++ interjection path i ++
            [Event.write path "freezer.state" Frozen]) path "freezer.state" with
        | error e2 =>
          rw [h1, h2] at hs
          simp only [SameUpToSpace] at hs
        | ok v2 =>
          rw [h1, h2] at hs
          simp only [SameUpToSpace] at hs
          by_cases c1 : TrimSpace v1 = "FREEZING"
          · rw [freezeLoop_freezing st path n i h v1 hwr h1 c1,
              freezeLoop_freezing st2 path n i h v2 hwr2 h2 (hs.trans c1)]
            exact ih (i + 1) _
          · by_cases c2 : TrimSpace v1 = "FROZEN"
            · rw [freezeLoop_frozen st path n i h v1 hwr h1 c2,
                freezeLoop_frozen st2 path n i h v2 hwr2 h2 (hs.trans c2)]
            · rw [freezeLoop_unexpected st path n i h v1 hwr h1 c1 c2,
                freezeLoop_unexpected st2 path n i h v2 hwr2 h2 (hs ▸ c1) (hs ▸ c2), hs]

/-- C19: two stores that answer every write alike and every read alike up to
surrounding white space (the same error, or values with the same trimmed text)
make `Set(path, Frozen)` issue the same sequence of accesses and return the same
result: both nil, or both the same error. -/
theorem Set_Frozen_trims_before_classifying (st st2 : Store) (path : String) (h : List Event)
    (hr : ∀ h, SameUpToSpace (st2.ReadFile h path "freezer.state")
      (st.ReadFile h path "freezer.state"))
    (hw : ∀ h data, st2.WriteFile h path "freezer.state" data =
      st.WriteFile h path "freezer.state" data) :
    (Set st2 path ⟨Frozen⟩ h).2 = (Set st path ⟨Frozen⟩ h).2 ∧
    (Set st2 path ⟨Frozen⟩ h).1 = (Set st path ⟨Frozen⟩ h).1 := by
  have heq : Set st2 path ⟨Frozen⟩ h = Set st path ⟨Frozen⟩ h := by
    simp only [Set, if_true, freezeLoop_congr_trim st st2 path hr (fun h => hw h Frozen),
      writeFile]
  rw [heq]
  exact ⟨rfl, rfl⟩

/-- C19, at the stores that answer `FROZEN` and `FROZEN` followed by a newline:
both calls succeed after the same two accesses. -/
theorem Set_Frozen_trims_before_classifying_witness :
    (Set (scripted "/g" (fun _ => none) (fun _ => Except.ok "FROZEN\n")) "/g" ⟨Frozen⟩ []).2 =
      (Set (scripted "/g" (fun _ => none) (fun _ => Except.ok "FROZEN")) "/g" ⟨Frozen⟩ []).2 ∧
    (Set (scripted "/g" (fun _ => none) (fun _ => Except.ok "FROZEN\n")) "/g" ⟨Frozen⟩ []).1 =
      (Set (scripted "/g" (fun _ => none) (fun _ => Except.ok "FROZEN")) "/g" ⟨Frozen⟩ []).1 :=
  Set_Frozen_trims_before_classifying
    (scripted "/g" (fun _ => none) (fun _ => Except.ok "FROZEN"))
    (scripted "/g" (fun _ => none) (fun _ => Except.ok "FROZEN\n")) "/g" []
    (fun _ => by
      show TrimSpace "FROZEN\n" = TrimSpace "FROZEN"
      decide)
    (fun _ _ => rfl)

/-! ## `Set` followed by `GetState` over a well-behaved store -/

theorem lastWritten_append_write (path : String) (h : List Event) (x : String) :
    lastWritten path (h ++ [Event.write path "freezer.state" x]) = some x := by
  induction h with
  | nil => simp [lastWritten]
  | cons e h ih => simp [lastWritten, ih]

theorem lastWritten_append_read (path : String) (h : List Event) (dir file : String) :
    lastWritten path (h ++ [Event.read dir file]) = lastWritten path h := by
  induction h with
  | nil => simp [lastWritten]
  | cons e h ih => simp [lastWritten, ih]

/-- C18: over a store whose accesses all succeed and whose read of the state entry
answers the last value written to it, possibly followed by a newline:
`Set(path, Frozen)` returns nil on its first attempt, leaves `FROZEN` as the last
value written, and a following `GetState(path)` returns `(Frozen, nil)`;
`Set(path, Thawed)` returns nil and a following `GetState(path)` returns
`(Thawed, nil)`. -/
theorem Set_then_GetState (st : Store) (path : String) (h : List Event) (fuel : Nat)
    (hw : ∀ h dir file data, st.WriteFile h dir file data = none)
    (hrd : ∀ h x, lastWritten path h = some x →
      st.ReadFile h path "freezer.state" = Except.ok x ∨
      st.ReadFile h path "freezer.state" = Except.ok (x ++ "\n")) :
    (Set st path ⟨Frozen⟩ h =
        (none, h ++ [Event.write path "freezer.state" "FROZEN",
          Event.read path "freezer.state"]) ∧
      lastWritten path (Set st path ⟨Frozen⟩ h).2 = some "FROZEN" ∧
      GetState st path (fuel + 1) (Set st path ⟨Frozen⟩ h).2 =
        some (("FROZEN", none), h ++ [Event.write path "freezer.state" "FROZEN",
          Event.read path "freezer.state", Event.read path "freezer.state"])) ∧
    (Set st path ⟨Thawed⟩ h = (none, h ++ [Event.write path "freezer.state" "THAWED"]) ∧
      GetState st path (fuel + 1) (Set st path ⟨Thawed⟩ h).2 =
        some (("THAWED", none), h ++ [Event.write path "freezer.state" "THAWED",
          Event.read path "freezer.state"])) := by
  have tF : TrimSpace ("FROZEN" ++ "\n") = "FROZEN" := by decide
  have tF0 : TrimSpace "FROZEN" = "FROZEN" := by decide
  have tT : TrimSpace ("THAWED" ++ "\n") = "THAWED" := by decide
  have tT0 : TrimSpace "THAWED" = "THAWED" := by decide
  have hreadF : ∀ h, lastWritten path h = some "FROZEN" →
      ∃ v, st.ReadFile h path "freezer.state" = Except.ok v ∧ TrimSpace v = "FROZEN" := by
    intro h hl
    rcases hrd h "FROZEN" hl with hv | hv
    · exact ⟨_, hv, tF0⟩
    · exact ⟨_, hv, tF⟩
  have hreadT : ∀ h, lastWritten path h = some "THAWED" →
      ∃ v, st.ReadFile h path "freezer.state" = Except.ok v ∧ TrimSpace v = "THAWED" := by
    intro h hl
    rcases hrd h "THAWED" hl with hv | hv
    · exact ⟨_, hv, tT0⟩
    · exact ⟨_, hv, tT⟩
  have hi : interjection path 0 = [] := rfl
  have hsetF : Set st path ⟨Frozen⟩ h =
      (none, h ++ [Event.write path "freezer.state" "FROZEN",
        Event.read path "freezer.state"]) := by
    apply Set_Frozen_of_nil
    obtain ⟨v, hv, ht⟩ := hreadF (h ++ [Event.write path "freezer.state" "FROZEN"])
      (lastWritten_append_write path h "FROZEN")
    rw [freezeLoop_frozen st path 999 0 h v (hw _ _ _ _)
      (by rw [hi, List.append_nil]; exact hv) ht]
    simp [attempt, hi, Frozen]
  have hsetT : Set st path ⟨Thawed⟩ h =
      (none, h ++ [Event.write path "freezer.state" "THAWED"]) := by
    simp [Set, Frozen, Thawed, writeFile, hw]
  have hlastF : lastWritten path (h ++ [Event.write path "freezer.state" "FROZEN",
      Event.read path "freezer.state"]) = some "FROZEN" := by
    have e : h ++ [Event.write path "freezer.state" "FROZEN", Event.read path "freezer.state"] =
        (h ++ [Event.write path "freezer.state" "FROZEN"]) ++
          [Event.read path "freezer.state"] := by simp
    rw [e, lastWritten_append_read, lastWritten_append_write]
  refine ⟨⟨hsetF, ?_, ?_⟩, hsetT, ?_⟩
  · rw [hsetF]
    exact hlastF
  · rw [hsetF]
    obtain ⟨v, hv, ht⟩ := hreadF _ hlastF
    rw [GetState]
    simp [readFile, hv, ht, Frozen]
  · rw [hsetT]
    obtain ⟨v, hv, ht⟩ := hreadT _ (lastWritten_append_write path h "THAWED")
    rw [GetState]
    simp [readFile, hv, ht, Thawed]

/-- C18, at the store that echoes the last value written followed by a newline. -/
theorem Set_then_GetState_witness :
    (Set (echoStore "/g") "/g" ⟨Frozen⟩ [] =
        (none, [Event.write "/g" "freezer.state" "FROZEN", Event.read "/g" "freezer.state"]) ∧
      lastWritten "/g" (Set (echoStore "/g") "/g" ⟨Frozen⟩ []).2 = some "FROZEN" ∧
      GetState (echoStore "/g") "/g" 1 (Set (echoStore "/g") "/g" ⟨Frozen⟩ []).2 =
        some (("FROZEN", none), [Event.write "/g" "freezer.state" "FROZEN",
          Event.read "/g" "freezer.state", Event.read "/g" "freezer.state"])) ∧
    (Set (echoStore "/g") "/g" ⟨Thawed⟩ [] =
        (none, [Event.write "/g" "freezer.state" "THAWED"]) ∧
      GetState (echoStore "/g") "/g" 1 (Set (echoStore "/g") "/g" ⟨Thawed⟩ []).2 =
        some (("THAWED", none), [Event.write "/g" "freezer.state" "THAWED",
          Event.read "/g" "freezer.state"])) :=
  Set_then_GetState (echoStore "/g") "/g" [] 0 (fun _ _ _ _ => rfl)
    (fun h x hl => Or.inr (by simp [echoStore, hl]))

/-! ## `Set(path, Frozen)`: where the self-correction stands -/

theorem eventsFromFrozenWrite_at (path : String) (pre rest : List Event) (j : Nat)
    (hj : numWrites path Frozen pre = j) :
    eventsFromFrozenWrite path j (pre ++ Event.write path "freezer.state" Frozen :: rest) =
      Event.write path "freezer.state" Frozen :: rest := by
  induction pre generalizing j with
  | nil =>
    have h0 : j = 0 := by rw [← hj]; rfl
    subst h0
    simp [eventsFromFrozenWrite]
  | cons e pre ih =>
    by_cases he : e = Event.write path "freezer.state" Frozen
    · subst he
      have hc : numWrites path Frozen pre + 1 = j := by
        rw [← hj]; simp [numWrites, List.count_cons]
      subst hc
      simp [eventsFromFrozenWrite, ih (numWrites path Frozen pre) rfl]
    · have hc : numWrites path Frozen pre = j := by
        rw [← hj]
        simp [numWrites, List.count_cons, he]
      simp [eventsFromFrozenWrite, he, ih j hc]

/-- The freeze loop only adds to the history it starts from. -/
theorem freezeLoop_extends (st : Store) (path : String) (n i : Nat) (h : List Event) :
    ∃ rest, (freezeLoop st path n i h).2 = h ++ rest := by
  induction n generalizing i h with
  | zero => exact ⟨[], by simp [freezeLoop]⟩
  | succ n ih =>
    cases hw : st.WriteFile (h ++ interjection path i) path "freezer.state" Frozen with
    | some e =>
      rw [freezeLoop_write_fails st path n i h e hw]
      exact ⟨_, List.append_assoc _ _ _⟩
    | none =>
      cases hr : st.ReadFile (h ++ interjection path i ++
          [Event.write path "freezer.state" Frozen]) path "freezer.state" with
      | error e =>
        rw [freezeLoop_read_fails st path n i h e hw hr]
        exact ⟨_, rfl⟩
      | ok v =>
        by_cases h1 : TrimSpace v = "FREEZING"
        · rw [freezeLoop_freezing st path n i h v hw hr h1]
          obtain ⟨rest, hrest⟩ := ih (i + 1) (h ++ attempt path i)
          exact ⟨attempt path i ++ rest, by rw [hrest, List.append_assoc]⟩
        · by_cases h2 : TrimSpace v = "FROZEN"
          · rw [freezeLoop_frozen st path n i h v hw hr h2]
            exact ⟨_, rfl⟩
          · rw [freezeLoop_unexpected st path n i h v hw hr h1 h2]
            exact ⟨_, rfl⟩

/-- An attempt of the freeze loop starts with its self-correction, if any, and its
write of `FROZEN`. -/
theorem freezeLoop_starts (st : Store) (path : String) (n i : Nat) (h : List Event) :
    ∃ rest, (freezeLoop st path (n + 1) i h).2 =
      h ++ interjection path i ++ [Event.write path "freezer.state" Frozen] ++ rest := by
  cases hw : st.WriteFile (h ++ interjection path i) path "freezer.state" Frozen with
  | some e =>
    rw [freezeLoop_write_fails st path n i h e hw]
    exact ⟨[], by simp⟩
  | none =>
    have hsplit : h ++ attempt path i =
        h ++ interjection path i ++ [Event.write path "freezer.state" Frozen] ++
          [Event.read path "freezer.state"] := by simp [attempt]
    cases hr : st.ReadFile (h ++ interjection path i ++
        [Event.write path "freezer.state" Frozen]) path "freezer.state" with
    | error e =>
      rw [freezeLoop_read_fails st path n i h e hw hr]
      exact ⟨_, hsplit⟩
    | ok v =>
      by_cases h1 : TrimSpace v = "FREEZING"
      · rw [freezeLoop_freezing st path n i h v hw hr h1]
        obtain ⟨rest, hrest⟩ := freezeLoop_extends st path n (i + 1) (h ++ attempt path i)
        exact ⟨Event.read path "freezer.state" :: rest, by rw [hrest, hsplit]; simp⟩
      · by_cases h2 : TrimSpace v = "FROZEN"
        · rw [freezeLoop_frozen st path n i h v hw hr h2]
          exact ⟨_, hsplit⟩
        · rw [freezeLoop_unexpected st path n i h v hw hr h1 h2]
          exact ⟨_, hsplit⟩

/-- The history of `Set(path, Frozen)` starts with the history of its loop. -/
theorem Set_Frozen_extends (st : Store) (path : String) (h : List Event) :
    ∃ rest, (Set st path ⟨Frozen⟩ h).2 = (freezeLoop st path 1000 0 h).2 ++ rest := by
  cases hb : freezeLoop st path 1000 0 h with
  | mk err h1 =>
    cases err with
    | some e =>
      rw [Set_Frozen_of_error st path h h1 e hb]
      exact ⟨_, rfl⟩
    | none =>
      rw [Set_Frozen_of_nil st path h h1 hb]
      exact ⟨[], by simp⟩

/-- C16 as stated fails: over the store that reads `FREEZING` 51 times and then
`FROZEN`, attempt 49 (with `49 % 50 = 49`) runs to its read and attempt 50 begins,
yet the write and the read of attempt 49 are followed at once by the write of
`FROZEN` of attempt 50, not by the self-correction. -/
theorem self_correction_not_after_read_back :
    49 % 50 = 49 ∧
    ¬ SelfCorrectionAfter "/g"
      (Set (scripted "/g" (fun _ => none)
        (fun j => if j < 51 then Except.ok "FREEZING\n" else Except.ok "FROZEN\n"))
        "/g" ⟨Frozen⟩ []).2 49 := by
  refine ⟨rfl, ?_⟩
  rintro ⟨pre, post, htr, hc⟩
  have hcomp : (eventsFromFrozenWrite "/g" 49
      (Set (scripted "/g" (fun _ => none)
        (fun j => if j < 51 then Except.ok "FREEZING\n" else Except.ok "FROZEN\n"))
        "/g" ⟨Frozen⟩ []).2).take 5 =
      [Event.write "/g" "freezer.state" "FROZEN", Event.read "/g" "freezer.state",
       Event.write "/g" "freezer.state" "FROZEN", Event.read "/g" "freezer.state",
       Event.write "/g" "freezer.state" "FROZEN"] := by decide
  have hshape : pre ++ [Event.write "/g" "freezer.state" Frozen,
      Event.read "/g" "freezer.state", Event.write "/g" "freezer.state" Thawed,
      Event.sleep 10, Event.write "/g" "freezer.state" Frozen] ++ post =
      pre ++ Event.write "/g" "freezer.state" Frozen ::
        ([Event.read "/g" "freezer.state", Event.write "/g" "freezer.state" Thawed,
          Event.sleep 10, Event.write "/g" "freezer.state" Frozen] ++ post) := by simp
  rw [htr, hshape, eventsFromFrozenWrite_at "/g" pre _ 49 hc] at hcomp
  simp [Thawed] at hcomp

/-- C16, amended: on every attempt `i < 1000` with `i % 50 = 49` that the loop
reaches, the write of `THAWED` and the 10ms pause stand before that attempt's own
write of `FROZEN`: right after the write and the read-back of attempt `i - 1`.
The history of the call is that of the attempts `0, ..., i - 1`, then write
`THAWED`, pause, write `FROZEN` (attempt `i`), then the rest. -/
theorem Set_Frozen_self_correction_before_write (st : Store) (path : String) (i : Nat)
    (hi : i % 50 = 49) (hlt : i < 1000)
    (hw : ∀ j, j < i → FrozenWriteAt st path j none)
    (hfreezing : ∀ j, j < i → ReadsAt st path j "FREEZING") :
    SelfCorrectionAfter path (Set st path ⟨Frozen⟩ []).2 (i - 1) ∧
    ∃ rest, (Set st path ⟨Frozen⟩ []).2 =
      attempts path i ++ [Event.write path "freezer.state" Thawed, Event.sleep 10,
        Event.write path "freezer.state" Frozen] ++ rest := by
  obtain ⟨n, hn⟩ : ∃ n, 1000 = i + (n + 1) := ⟨1000 - i - 1, by omega⟩
  obtain ⟨r1, hr1⟩ := Set_Frozen_extends st path []
  obtain ⟨r2, hr2⟩ := freezeLoop_starts st path n i (attempts path i)
  have hloop := freezeLoop_attempts st path i hw hfreezing (n + 1)
  rw [← hn] at hloop
  have hint : interjection path i =
      [Event.write path "freezer.state" Thawed, Event.sleep 10] := by
    simp [interjection, hi]
  have htr : (Set st path ⟨Frozen⟩ []).2 =
      attempts path i ++ [Event.write path "freezer.state" Thawed, Event.sleep 10,
        Event.write path "freezer.state" Frozen] ++ (r2 ++ r1) := by
    rw [hr1, hloop, hr2, hint]
    simp
  refine ⟨⟨attempts path (i - 1), r2 ++ r1, ?_, numWrites_Frozen_attempts path (i - 1)⟩,
    r2 ++ r1, htr⟩
  obtain ⟨k, hk⟩ : ∃ k, i = k + 1 := ⟨i - 1, by omega⟩
  have hk49 : ¬ k % 50 = 49 := by omega
  rw [htr, hk]
  simp [attempts, attempt, interjection, hk49]

/-- C16 amended, at the store that always reads `FREEZING`, attempt 49: the
self-correction follows the write and the read of attempt 48. -/
theorem Set_Frozen_self_correction_before_write_witness :
    SelfCorrectionAfter "/g"
      (Set (scripted "/g" (fun _ => none) (fun _ => Except.ok "FREEZING\n"))
        "/g" ⟨Frozen⟩ []).2 48 :=
  (Set_Frozen_self_correction_before_write
    (scripted "/g" (fun _ => none) (fun _ => Except.ok "FREEZING\n")) "/g" 49
    (by decide) (by decide)
    (fun j _ => scripted_FrozenWriteAt "/g" _ _ j)
    (fun j _ => scripted_ReadsAt "/g" _ _ j "FREEZING\n" "FREEZING" rfl (by decide))).1

end Freezer
